import Mathlib

/-!
Verification of the Shopifake back-office scripts.

This file gives a shallow embedding of the two operator scripts of the
repository:

* `scripts/lock/lib.py` — the deployment lock-file generator
  (`build_service_locks`, `build_lock_payload`, `dump_lock` and the
  `ImageMetadata` / `ServiceLock` dataclasses).
* `scripts/seed_from_csv.py` — the CSV-driven seeder (`load_rows`,
  `_normalize_row` and the `Seeder` class with its ensure/create flow).

External boundaries that the scripts only call into are not re-implemented:
`subprocess`/git invocations (`run_git_command`, `list_submodules`) are
represented by passing their result — the `path -> sha` association list —
as an argument; the HTTP gateway is represented by an oracle structure
returning well-typed decoded JSON responses; the standard-library JSON
parser used on two CSV cells is represented by carrying the decoded values
in the raw-row record; `float`/`int` conversions of non-empty numeric cells
are carried as their source strings (only their presence is consumed by the
seeder's control flow).  Everything the scripts themselves compute is
translated directly from the Python source.

Python strings are modelled as `String` (a list of characters), Python
dicts as insertion-ordered association lists with last-write-wins update,
and Python `Optional` values as `Option`.
-/

/-! ## String helpers (Python string primitives used by the scripts) -/

/-- `c` is one of the characters Python's `str.strip()` removes. -/
def isStripChar (c : Char) : Bool := c.isWhitespace

/-- Python `str.strip()` on a character list. -/
def stripList (l : List Char) : List Char :=
  ((l.dropWhile isStripChar).reverse.dropWhile isStripChar).reverse

/-- Python `str.strip()`. -/
def pystrip (s : String) : String := ⟨stripList s.data⟩

/-- Python `str.lower()` (ASCII case folding, which covers every string the
scripts compare). -/
def pylower (s : String) : String := ⟨s.data.map Char.toLower⟩

/-- Python `str.upper()` (ASCII case folding). -/
def pyupper (s : String) : String := ⟨s.data.map Char.toUpper⟩

/-- Python `s[:n]` on a string: the first `n` characters. -/
def pytake (n : Nat) (s : String) : String := ⟨s.data.take n⟩

/-- Python `needle in hay` on character lists: `needle` occurs contiguously
inside `hay`. -/
def hasSub (needle : List Char) : List Char → Bool
  | [] => needle.isEmpty
  | c :: rest => needle.isPrefixOf (c :: rest) || hasSub needle rest

/-- Python `needle in hay` on strings. -/
def strContains (hay needle : String) : Bool := hasSub needle.data hay.data

/-- Python `s.split(sep)` for a one-character separator. -/
def splitOnChar (sep : Char) : List Char → List (List Char)
  | [] => [[]]
  | c :: rest =>
    match splitOnChar sep rest with
    | [] => [[]]
    | h :: t => if c = sep then [] :: h :: t else (c :: h) :: t

/-- Python `a or b` for an optional string `a`: `b` when `a` is `None` or
empty. -/
def pyOr (a : Option String) (b : String) : String :=
  match a with
  | none => b
  | some s => if s = "" then b else s

/-- Python truthiness of an `Optional[str]`. -/
def truthyStr (a : Option String) : Bool :=
  match a with
  | none => false
  | some s => s ≠ ""

/-- Python `", ".join(l)`. -/
def joinComma : List String → String
  | [] => ""
  | [x] => x
  | x :: y :: t => x ++ ", " ++ joinComma (y :: t)

/-- Python `<=` on strings: lexicographic comparison by code point. -/
def charListLe : List Char → List Char → Bool
  | [], _ => true
  | _ :: _, [] => false
  | a :: as_, b :: bs =>
    if a.val < b.val then true
    else if b.val < a.val then false
    else charListLe as_ bs

/-- Python `<=` on strings. -/
def strLe (a b : String) : Bool := charListLe a.data b.data

/-! ## Association lists (the model of Python dicts) -/

/-- First-match lookup in an association list. -/
def alookup {α β : Type} [DecidableEq α] (k : α) : List (α × β) → Option β
  | [] => none
  | (k0, v) :: t => if k0 = k then some v else alookup k t

/-- Python dict assignment `d[k] = v`: replace in place when the key exists,
append otherwise (insertion order preserved). -/
def dictInsert {α β : Type} [DecidableEq α] (k : α) (v : β) : List (α × β) → List (α × β)
  | [] => [(k, v)]
  | (k0, v0) :: t => if k0 = k then (k, v) :: t else (k0, v0) :: dictInsert k v t

/-- Insertion into a key-sorted list, keeping earlier-inserted equal keys
first (the sort used to model Python `sorted` is stable, as Python's is). -/
def insertSorted {β : Type} (x : String × β) : List (String × β) → List (String × β)
  | [] => [x]
  | y :: ys => if strLe x.1 y.1 then x :: y :: ys else y :: insertSorted x ys

/-- Python `sorted(d.items())` for a dict with distinct keys: sort the pairs
by key. -/
def sortByKey {β : Type} (l : List (String × β)) : List (String × β) :=
  l.foldr insertSorted []

/-- Insertion into a sorted list of strings. -/
def insertStr (x : String) : List String → List String
  | [] => [x]
  | y :: ys => if strLe x y then x :: y :: ys else y :: insertStr x ys

/-- Python `sorted(...)` on a list of strings. -/
def sortStrs (l : List String) : List String := l.foldr insertStr []

/-- Adjacent key-sortedness of an association list. -/
def keysSorted {β : Type} : List (String × β) → Prop
  | [] => True
  | [_] => True
  | x :: y :: t => strLe x.1 y.1 = true ∧ keysSorted (y :: t)

/-- Adjacent sortedness of a list of strings. -/
def strsSorted : List String → Prop
  | [] => True
  | [_] => True
  | x :: y :: t => strLe x y = true ∧ strsSorted (y :: t)

/-! ## `scripts/lock/lib.py` — data model -/

/-- `ImageMetadata` dataclass: container image details.  The source field
`tag_prefix` is named `tagPre` here. -/
structure ImageMetadata where
  repository : String
  tag : Option String := none
  digest : Option String := none
  tagPre : Option String := none
deriving DecidableEq, Repr

/-- `ImageMetadata.to_mapping`: serialisable mapping, skipping empty
values (`if self.tag:` — Python truthiness skips both `None` and `""`). -/
def ImageMetadata.to_mapping (im : ImageMetadata) : List (String × String) :=
  [("repository", im.repository)]
    ++ (if truthyStr im.tag then [("tag", im.tag.getD "")] else [])
    ++ (if truthyStr im.digest then [("digest", im.digest.getD "")] else [])

/-- A value of a serialised `ServiceLock` mapping: either a string or a
string-to-string mapping (the `image` entry). -/
inductive SLVal where
  | s (v : String)
  | m (kvs : List (String × String))
deriving DecidableEq, Repr

/-- `ServiceLock` dataclass: lock information for one service. -/
structure ServiceLock where
  submodule_path : String
  git_sha : String
  image : ImageMetadata
  notes : Option String := none
deriving DecidableEq, Repr

/-- `ServiceLock.to_mapping`: serialisable mapping; `notes` is emitted only
when truthy. -/
def ServiceLock.to_mapping (l : ServiceLock) : List (String × SLVal) :=
  [("submodule_path", .s l.submodule_path),
   ("git_sha", .s l.git_sha),
   ("image", .m l.image.to_mapping)]
    ++ (if truthyStr l.notes then [("notes", .s (l.notes.getD ""))] else [])

/-- `Path(path).name`: the last path component. -/
def pathName (p : String) : String :=
  (((splitOnChar '/' p.data).map (fun l => (⟨l⟩ : String))).filter (fun s => s ≠ "")).getLastD ""

/-- Python truthiness of the optional `services_filter` list. -/
def filterActive (f : Option (List String)) : Bool :=
  match f with
  | none => false
  | some l => !l.isEmpty

/-- Python `x in l` on a list of strings. -/
def listHas (l : List String) (x : String) : Bool := l.any (fun y => y == x)

/-- Whether `services_filter and service_name not in services_filter` makes
the loop skip the submodule. -/
def skippedByFilter (f : Option (List String)) (name : String) : Bool :=
  filterActive f && !listHas (match f with | none => [] | some l => l) name

/-- The metadata `build_service_locks` uses for a submodule: the
`image_metadata` entry for the service name, or the computed default
(`<default_registry>/<service_name>` with the default tag-prefix). -/
def resolvedMeta (image_metadata : List (String × ImageMetadata))
    (default_registry : String) (defaultTagPre : Option String)
    (path : String) : ImageMetadata :=
  (alookup (pathName path) image_metadata).getD
    { repository := default_registry ++ "/" ++ pathName path
      tag := none
      tagPre := defaultTagPre }

/-- The final tag determination of `build_service_locks`: a truthy
`tag_prefix` prepends the 7-character short SHA; otherwise an explicit tag
is kept as-is and only a `None` tag falls back to the short SHA. -/
def finalTag (im : ImageMetadata) (sha : String) : String :=
  if truthyStr im.tagPre then im.tagPre.getD "" ++ pytake 7 sha
  else match im.tag with
    | none => pytake 7 sha
    | some t => t

/-- The lock `build_service_locks` constructs for one submodule entry
(`path`, `sha`): metadata lookup with computed default, final-tag
resolution, and the resolved `ServiceLock`. -/
def lockFor (image_metadata : List (String × ImageMetadata))
    (default_registry : String) (defaultTagPre : Option String)
    (path sha : String) : ServiceLock :=
  let image := resolvedMeta image_metadata default_registry defaultTagPre path
  { submodule_path := path
    git_sha := sha
    image := { repository := image.repository, tag := some (finalTag image sha),
               digest := image.digest }
    notes := none }

/-- The loop body of `build_service_locks`: skip filtered-out submodules,
otherwise insert the constructed lock under the service name. -/
def buildLockStep (image_metadata : List (String × ImageMetadata))
    (services_filter : Option (List String))
    (default_registry : String) (defaultTagPre : Option String)
    (locks : List (String × ServiceLock)) (entry : String × String) :
    List (String × ServiceLock) :=
  let service_name := pathName entry.1
  if skippedByFilter services_filter service_name then locks
  else dictInsert service_name
    (lockFor image_metadata default_registry defaultTagPre entry.1 entry.2) locks

/-- `build_service_locks`, taking the `path -> sha` mapping produced by
`list_submodules` (a git-subprocess wrapper, not modelled) as input.  The
source field `default_tag_prefix` is named `defaultTagPre` here. -/
def build_service_locks (service_commits : List (String × String))
    (image_metadata : List (String × ImageMetadata))
    (services_filter : Option (List String))
    (default_registry : String) (defaultTagPre : Option String) :
    Except String (List (String × ServiceLock)) :=
  let locks := service_commits.foldl
    (buildLockStep image_metadata services_filter default_registry defaultTagPre) []
  if filterActive services_filter then
    let requested := (match services_filter with | none => [] | some l => l)
    let missing := sortStrs ((requested.filter (fun q => (alookup q locks).isNone)).dedup)
    if missing.isEmpty then .ok locks
    else .error ("Requested services missing from submodules: " ++ joinComma missing)
  else .ok locks

/-! ## `scripts/lock/lib.py` — payload assembly and serialisation

Python's `json.dump(payload, handle, indent=2, sort_keys=True)` is modelled
by type-directed serialisers over the exact shapes occurring in the lock
payload: a top-level object whose values are either a string-to-string
object (`metadata`) or an object of serialised service locks (`services`).
Each serialiser sorts the keys of its object and indents nested items by
two further spaces, as the stdlib does with those arguments.  String
escaping covers the backslash and the double quote; no other character
needing a JSON escape occurs in lock payloads. -/

/-- JSON escape of one character (backslash and quote; other characters are
emitted verbatim). -/
def escChar (c : Char) : List Char :=
  if c = '\\' then ['\\', '\\']
  else if c = '\x22' then ['\\', '\x22']
  else [c]

/-- JSON string escaping. -/
def escapeJson (s : String) : String :=
  ⟨s.data.foldr (fun c r => escChar c ++ r) []⟩

/-- A JSON string literal. -/
def quoteJson (s : String) : String := "\x22" ++ escapeJson s ++ "\x22"

/-- `n` spaces. -/
def indentStr (n : Nat) : String := ⟨List.replicate n ' '⟩

/-- Render already-serialised object entries at the given indentation,
separated by `",\n"`. -/
def renderEntries (ind : Nat) : List (String × String) → String
  | [] => ""
  | [(k, v)] => indentStr ind ++ quoteJson k ++ ": " ++ v
  | (k, v) :: e :: t =>
    indentStr ind ++ quoteJson k ++ ": " ++ v ++ ",\n" ++ renderEntries ind (e :: t)

/-- Render an object from already-serialised entries with `indent=2`
layout: `json.dumps` emits `\x7b\x7d` for an empty object, and otherwise an
opening brace, one entry per line indented two spaces deeper, and a closing
brace at the enclosing indentation. -/
def renderObj (ind : Nat) (entries : List (String × String)) : String :=
  match entries with
  | [] => "\x7b\x7d"
  | _ => "\x7b\n" ++ renderEntries (ind + 2) entries ++ "\n" ++ indentStr ind ++ "\x7d"

/-- Serialise a string-to-string object with sorted keys. -/
def dumpStrObj (ind : Nat) (kvs : List (String × String)) : String :=
  renderObj ind ((sortByKey kvs).map (fun kv => (kv.1, quoteJson kv.2)))

/-- Serialise one value of a service-lock mapping. -/
def dumpSLVal (ind : Nat) : SLVal → String
  | .s v => quoteJson v
  | .m kvs => dumpStrObj ind kvs

/-- Serialise a service-lock mapping with sorted keys. -/
def dumpSLObj (ind : Nat) (kvs : List (String × SLVal)) : String :=
  renderObj ind ((sortByKey kvs).map (fun kv => (kv.1, dumpSLVal (ind + 2) kv.2)))

/-- Serialise the `services` object with sorted keys. -/
def dumpServices (ind : Nat) (kvs : List (String × List (String × SLVal))) : String :=
  renderObj ind ((sortByKey kvs).map (fun kv => (kv.1, dumpSLObj (ind + 2) kv.2)))

/-- A value of the top-level lock payload: the `metadata` object or the
`services` object. -/
inductive PayloadVal where
  | strMap (kvs : List (String × String))
  | lockMap (kvs : List (String × List (String × SLVal)))
deriving DecidableEq, Repr

/-- Serialise one top-level payload value. -/
def dumpPayloadVal (ind : Nat) : PayloadVal → String
  | .strMap kvs => dumpStrObj ind kvs
  | .lockMap kvs => dumpServices ind kvs

/-- `json.dumps(payload, indent=2, sort_keys=True)` on a lock payload. -/
def dumpPayload (p : List (String × PayloadVal)) : String :=
  renderObj 0 ((sortByKey p).map (fun kv => (kv.1, dumpPayloadVal 2 kv.2)))

/-- `build_lock_payload`.  The git metadata strings (`source_branch`,
`commit` from `rev-parse`) and the UTC ISO timestamp are inputs: the script
obtains them from subprocess/`datetime`, which are outside the model. -/
def build_lock_payload (service_commits : List (String × String))
    (services_filter : Option (List String))
    (image_metadata : List (String × ImageMetadata))
    (generator_id generated_at source_branch commit : String)
    (default_registry : String) (defaultTagPre : Option String) :
    Except String (List (String × PayloadVal)) :=
  match build_service_locks service_commits image_metadata services_filter
      default_registry defaultTagPre with
  | .error e => .error e
  | .ok service_locks =>
    .ok [("metadata", .strMap
            [("generated_at", generated_at),
             ("generator", generator_id),
             ("source_branch", source_branch),
             ("commit", commit)]),
         ("services", .lockMap
            ((sortByKey service_locks).map (fun nl => (nl.1, nl.2.to_mapping))))]

/-- The file-system state `dump_lock` acts on: a mapping from paths to file
contents.  Directories are not represented: `output.parent.mkdir(parents=True,
exist_ok=True)` always succeeds, so writing a file is always possible. -/
structure FS where
  files : List (String × String)
deriving DecidableEq, Repr

/-- Contents of a file, `none` when the path does not exist. -/
def FS.read? (fs : FS) (p : String) : Option String := alookup p fs.files

/-- `dump_lock`: refuse to overwrite an existing file unless `force`,
otherwise write the serialised payload followed by a newline and return the
output path together with the updated file system. -/
def dump_lock (payload : List (String × PayloadVal)) (output : String) (force : Bool)
    (fs : FS) : Except String (FS × String) :=
  if (fs.read? output).isSome && !force then
    .error ("Lock file already exists: " ++ output)
  else
    .ok ({ files := dictInsert output (dumpPayload payload ++ "\n") fs.files }, output)

/-! ## `scripts/seed_from_csv.py` — CSV rows

A raw CSV row is what `csv.DictReader` yields: each cell an optional
string.  The two cells that `_normalize_row` feeds through `json.loads`
(`filter_definitions` and `product_filters`) are carried as the decoded
values, since the stdlib JSON parser is outside the model: `none` stands
for an empty (or absent) cell, exactly the case where `parse_json_field`
returns `None` without parsing.  The `float`/`int` conversions of
`price_amount` and `inventory_initial_quantity` keep the source strings:
the seeder only tests those values for presence and forwards them in
request payloads. -/

/-- One entry of the decoded `filter_definitions` JSON list. -/
structure FilterDefinition where
  key : String
  type : String
  siteId : Option String := none
  displayName : Option String := none
  unit : Option String := none
  values : Option (List String) := none
  minValue : Option String := none
  maxValue : Option String := none
deriving DecidableEq, Repr

/-- A raw CSV row as produced by `csv.DictReader`. -/
structure RawRow where
  site_key : Option String := none
  site_name : Option String := none
  site_slug : Option String := none
  site_description : Option String := none
  site_currency : Option String := none
  site_language : Option String := none
  site_config : Option String := none
  category_name : Option String := none
  filter_definitions : Option (List FilterDefinition) := none
  product_name : Option String := none
  product_description : Option String := none
  product_images : Option String := none
  product_sku : Option String := none
  product_status : Option String := none
  product_scheduled_publish_at : Option String := none
  product_filters : Option (List (String × String)) := none
  price_amount : Option String := none
  price_currency : Option String := none
  price_effective_from : Option String := none
  price_effective_to : Option String := none
  inventory_initial_quantity : Option String := none
deriving Repr

/-- A normalized row, the dict `_normalize_row` returns. -/
structure Row where
  site_key : String
  site_name : String
  site_slug : String
  site_description : String
  site_currency : String
  site_language : String
  site_config : String
  category_name : String
  filter_definitions : List FilterDefinition
  product_name : String
  product_description : String
  product_images : List String
  product_sku : String
  product_status : String
  product_scheduled_publish_at : Option String
  product_filters : List (String × String)
  price_amount : Option String
  price_currency : String
  price_effective_from : Option String
  price_effective_to : Option String
  inventory_initial_quantity : Option String
deriving Repr

/-- The image list `_normalize_row` builds: split `product_images` on `'|'`,
strip each item, and drop empties. -/
def imagesOf (raw : RawRow) : List String :=
  ((splitOnChar '|' (raw.product_images.getD "").data).map (fun l => pystrip ⟨l⟩)).filter
    (fun s => s ≠ "")

/-- The normalized row built from the raw cells (the dict literal in
`_normalize_row`), given the already-computed image list. -/
def buildRow (raw : RawRow) (images : List String) : Row :=
  { site_key := pystrip (raw.site_key.getD "")
    site_name := pystrip (raw.site_name.getD "")
    site_slug := pystrip (raw.site_slug.getD "")
    site_description := pystrip (raw.site_description.getD "")
    site_currency := pystrip (raw.site_currency.getD "")
    site_language := pystrip (raw.site_language.getD "")
    site_config := pystrip (raw.site_config.getD "")
    category_name := pystrip (raw.category_name.getD "")
    filter_definitions := raw.filter_definitions.getD []
    product_name := pystrip (raw.product_name.getD "")
    product_description := pystrip (raw.product_description.getD "")
    product_images := images
    product_sku := pystrip (raw.product_sku.getD "")
    product_status :=
      (fun s => if s = "" then "DRAFT" else s) (pystrip (raw.product_status.getD "DRAFT"))
    product_scheduled_publish_at :=
      (fun s => if s = "" then none else some s)
        (pystrip (raw.product_scheduled_publish_at.getD ""))
    product_filters := raw.product_filters.getD []
    price_amount :=
      (fun s => if s = "" then none else some s) (pystrip (raw.price_amount.getD ""))
    price_currency := pystrip (raw.price_currency.getD "")
    price_effective_from :=
      (fun s => if s = "" then none else some s)
        (pystrip (raw.price_effective_from.getD ""))
    price_effective_to :=
      (fun s => if s = "" then none else some s) (pystrip (raw.price_effective_to.getD ""))
    inventory_initial_quantity :=
      (fun s => if s = "" then none else some s)
        (pystrip (raw.inventory_initial_quantity.getD "")) }

/-- The `missing` scan at the end of `_normalize_row`: the names, in the
dict's insertion order, whose value equals `""` or `[]` and that are not in
the exempt tuple.  Of the non-exempt entries only the string-valued ones
and `product_images` can compare equal to `""`/`[]` in Python (`None`,
floats and ints never do), so only those appear here. -/
def requiredScan (r : Row) : List (String × Bool) :=
  [("site_key", r.site_key == ""),
   ("site_name", r.site_name == ""),
   ("site_slug", r.site_slug == ""),
   ("site_description", r.site_description == ""),
   ("site_currency", r.site_currency == ""),
   ("site_language", r.site_language == ""),
   ("site_config", r.site_config == ""),
   ("category_name", r.category_name == ""),
   ("product_name", r.product_name == ""),
   ("product_description", r.product_description == ""),
   ("product_images", r.product_images.isEmpty),
   ("product_sku", r.product_sku == ""),
   ("product_status", r.product_status == ""),
   ("price_currency", r.price_currency == "")]

/-- The missing names themselves, in scan order. -/
def missingFields (r : Row) : List String :=
  ((requiredScan r).filter (fun kv => kv.2)).map (fun kv => kv.1)

/-- `_normalize_row`: build the normalized dict and run the validation
checks in source order. -/
def normalize_row (raw : RawRow) : Except String Row :=
  let images := imagesOf raw
  if images.isEmpty then
    .error "product_images must include at least one URL separated by '|'"
  else
    let r := buildRow raw images
    if pyupper r.product_status = "SCHEDULED" && r.product_scheduled_publish_at.isNone then
      .error "product_scheduled_publish_at is required when product_status is SCHEDULED"
    else if r.price_amount.isNone || r.price_currency = "" then
      .error "price_amount and price_currency are required"
    else if r.inventory_initial_quantity.isNone then
      .error "inventory_initial_quantity is required"
    else if !(missingFields r).isEmpty then
      .error ("Missing required fields: " ++ joinComma (missingFields r))
    else
      .ok r

/-- The loop of `load_rows`, with `idx` the CSV line number of the current
row (`enumerate(reader, start=2)`). -/
def loadRowsAux (idx : Nat) : List RawRow → Except String (List Row)
  | [] => .ok []
  | raw :: rest =>
    match normalize_row raw with
    | .error e => .error ("Failed to parse CSV row " ++ Nat.repr idx ++ ": " ++ e)
    | .ok row =>
      match loadRowsAux (idx + 1) rest with
      | .error e => .error e
      | .ok rows => .ok (row :: rows)

/-- `load_rows` on the parsed CSV records (the `FileNotFoundError` check and
the CSV reader itself are file-system boundaries outside the model). -/
def load_rows (raws : List RawRow) : Except String (List Row) :=
  loadRowsAux 2 raws

/-! ## `scripts/seed_from_csv.py` — the seeder

The HTTP boundary is an oracle (`Gateway`) of one function per endpoint the
seeder calls, each taking the number of requests issued so far (so that the
environment may answer differently over time, as real services do) and
returning either a decoded JSON value of the shape the seeder reads from
the response, or an `HTTPError` as status code and body.  The seeder's
state carries the three in-process caches and the trace of issued
requests.  Every operation returns its Python result (or the exception it
raises) together with the state, so that requests issued before a failure
remain visible. -/

/-- The fields of a site response the seeder reads (`site["id"]`). -/
structure Site where
  id : String
deriving DecidableEq, Repr

/-- The fields of a category response the seeder reads. -/
structure Category where
  id : String
  name : String
deriving DecidableEq, Repr

/-- A filter entry as returned by `GET /api/catalog/filters` or
`POST /api/catalog/filters`. -/
structure FilterEntry where
  id : String
  key : String
  type : String
  categoryId : String
deriving DecidableEq, Repr

/-- `CreatedFilter` dataclass. -/
structure CreatedFilter where
  id : String
  key : String
  type : String
deriving DecidableEq, Repr

/-- The body of `POST /api/sites`. -/
structure SitePayload where
  name : String
  slug : String
  description : String
  currency : String
  language : String
  config : String
deriving DecidableEq, Repr

/-- The body of `POST /api/catalog/products/categories`. -/
structure CategoryPayload where
  siteId : String
  name : String
deriving DecidableEq, Repr

/-- The body of `POST /api/catalog/filters`. -/
structure FilterPayload where
  siteId : String
  categoryId : String
  key : String
  type : String
  displayName : Option String
  unit : Option String
  values : Option (List String)
  minValue : Option String
  maxValue : Option String
deriving DecidableEq, Repr

/-- One product filter assignment: `filterId` plus `numericValue` for a
`QUANTITATIVE` filter and `textValue` otherwise. -/
structure FilterAssignment where
  filterId : String
  numericValue : Option String
  textValue : Option String
deriving DecidableEq, Repr

/-- The body of `POST /api/catalog/products`; `scheduledPublishAt` is
present only when the row carries a value. -/
structure ProductPayload where
  siteId : String
  name : String
  description : String
  images : List String
  categoryIds : List String
  sku : String
  status : String
  filters : List FilterAssignment
  scheduledPublishAt : Option String
deriving DecidableEq, Repr

/-- The body of `POST /api/prices`; the optional effective dates are
present only when the row carries them. -/
structure PricePayload where
  productId : String
  amount : Option String
  currency : String
  effectiveFrom : Option String
  effectiveTo : Option String
deriving DecidableEq, Repr

/-- The body of `POST /api/inventory`. -/
structure InvPayload where
  productId : String
  initialQuantity : Option String
deriving DecidableEq, Repr

/-- A request the seeder can issue through the gateway. -/
inductive Req where
  | getSiteBySlug (slug : String)
  | postSite (p : SitePayload)
  | getCategories (siteId : String)
  | postCategory (p : CategoryPayload)
  | getFilters (siteId : String)
  | postFilter (p : FilterPayload)
  | postProduct (p : ProductPayload)
  | postPrice (p : PricePayload)
  | postInventory (p : InvPayload)
deriving DecidableEq, Repr

/-- An HTTP error: status code and body. -/
structure HErr where
  status : Nat
  body : String
deriving DecidableEq, Repr

/-- The gateway oracle: one typed endpoint per call site, indexed by the
number of requests issued so far.  A successful `POST` of a product yields
`response.json().get("id")`, which may be absent. -/
structure Gateway where
  getSiteBySlug : Nat → String → Except HErr Site
  postSite : Nat → SitePayload → Except HErr Site
  getCategories : Nat → String → Except HErr (List Category)
  postCategory : Nat → CategoryPayload → Except HErr Category
  getFilters : Nat → String → Except HErr (List FilterEntry)
  postFilter : Nat → FilterPayload → Except HErr FilterEntry
  postProduct : Nat → ProductPayload → Except HErr (Option String)
  postPrice : Nat → PricePayload → Except HErr Unit
  postInventory : Nat → InvPayload → Except HErr Unit

/-- An exception escaping a seeder operation: an `HttpError` or a
`RuntimeError`. -/
inductive SeedErr where
  | http (status : Nat) (body : String)
  | runtime (msg : String)
deriving DecidableEq, Repr

/-- The seeder's mutable state: the three caches and the trace of issued
requests (oldest first). -/
structure SeederState where
  site_cache : List (String × Site)
  category_cache : List ((String × String) × Category)
  filter_cache : List ((String × String) × CreatedFilter)
  trace : List Req
deriving Repr

/-- The state of a fresh `Seeder`. -/
def initState : SeederState := ⟨[], [], [], []⟩

/-- Record an issued request in the trace. -/
def recordReq (r : Req) (s : SeederState) : SeederState :=
  { s with trace := s.trace ++ [r] }

/-- `Seeder._filter_cache_key`: lower-cased category id paired with the
filter key. -/
def filter_cache_key (categoryId key : String) : String × String :=
  (pylower categoryId, key)

/-- The site-cache key of a row: `row["site_key"] or row["site_slug"]`. -/
def siteCacheKey (row : Row) : String :=
  if row.site_key = "" then row.site_slug else row.site_key

/-- `Seeder._fetch_site_by_slug`: issue the GET and translate a 404 (or a
400 whose body mentions "site not found") into `None`. -/
def fetch_site_by_slug (g : Gateway) (slug : String) (s : SeederState) :
    Except SeedErr (Option Site) × SeederState :=
  let s1 := recordReq (.getSiteBySlug slug) s
  match g.getSiteBySlug s.trace.length slug with
  | .ok site => (.ok (some site), s1)
  | .error err =>
    if err.status == 404
        || (err.status == 400 && strContains (pylower err.body) "site not found") then
      (.ok none, s1)
    else (.error (.http err.status err.body), s1)

/-- The site payload `_ensure_site` builds from a row. -/
def sitePayloadOf (row : Row) : SitePayload :=
  { name := row.site_name, slug := row.site_slug,
    description := row.site_description, currency := row.site_currency,
    language := row.site_language, config := row.site_config }

/-- The recovery tail of `_ensure_site`: after a slug conflict, re-fetch
the site by slug; a still-missing site raises the `RuntimeError`. -/
def ensure_site_recover (g : Gateway) (row : Row) (s2 : SeederState) :
    Except SeedErr Site × SeederState :=
  match fetch_site_by_slug g row.site_slug s2 with
  | (.error e, s3) => (.error e, s3)
  | (.ok (some site), s3) =>
    (.ok site, { s3 with site_cache := (siteCacheKey row, site) :: s3.site_cache })
  | (.ok none, s3) =>
    (.error (.runtime ("Unable to ensure site '" ++ row.site_name ++ "'")), s3)

/-- The handling of an `HttpError` from `_ensure_site`'s create: a 400
whose body mentions "slug" triggers the re-fetch recovery; anything else
propagates. -/
def ensure_site_create_err (g : Gateway) (row : Row) (err : HErr) (s2 : SeederState) :
    Except SeedErr Site × SeederState :=
  if err.status == 400 && strContains (pylower err.body) "slug" then
    ensure_site_recover g row s2
  else (.error (.http err.status err.body), s2)

/-- The creation step of `_ensure_site`, reached when neither the cache nor
the fetch produced a site: post the site; an `HttpError` goes through
`ensure_site_create_err`. -/
def ensure_site_create (dry : Bool) (g : Gateway) (row : Row) (s1 : SeederState) :
    Except SeedErr Site × SeederState :=
  let ck := siteCacheKey row
  if dry then
    let site : Site := { id := "dry-" ++ ck }
    (.ok site, { s1 with site_cache := (ck, site) :: s1.site_cache })
  else
    let payload := sitePayloadOf row
    let s2 := recordReq (.postSite payload) s1
    match g.postSite s1.trace.length payload with
    | .ok site => (.ok site, { s2 with site_cache := (ck, site) :: s2.site_cache })
    | .error err => ensure_site_create_err g row err s2

/-- `Seeder._ensure_site`: cache, then fetch by slug, then create (the
creation and conflict recovery are `ensure_site_create` /
`ensure_site_recover`). -/
def ensure_site (dry : Bool) (g : Gateway) (row : Row) (s : SeederState) :
    Except SeedErr Site × SeederState :=
  let ck := siteCacheKey row
  match alookup ck s.site_cache with
  | some site => (.ok site, s)
  | none =>
    let fetched : Except SeedErr (Option Site) × SeederState :=
      if dry then (.ok none, s) else fetch_site_by_slug g row.site_slug s
    match fetched with
    | (.error e, s1) => (.error e, s1)
    | (.ok (some site), s1) =>
      (.ok site, { s1 with site_cache := (ck, site) :: s1.site_cache })
    | (.ok none, s1) => ensure_site_create dry g row s1

/-- `Seeder._refresh_filters`: fetch every filter of the site and cache it
under `(lower(categoryId), key)`; a no-op when `site_id` is `None` or in a
dry run. -/
def refresh_filters (dry : Bool) (g : Gateway) (siteId : Option String)
    (s : SeederState) : Except SeedErr Unit × SeederState :=
  match siteId with
  | none => (.ok (), s)
  | some sid =>
    if dry then (.ok (), s)
    else
      let s1 := recordReq (.getFilters sid) s
      match g.getFilters s.trace.length sid with
      | .error err => (.error (.http err.status err.body), s1)
      | .ok entries =>
        (.ok (), entries.foldl
          (fun st e =>
            { st with filter_cache :=
                (filter_cache_key e.categoryId e.key,
                 ({ id := e.id, key := e.key, type := e.type } : CreatedFilter))
                  :: st.filter_cache })
          s1)

/-- The category payload `_ensure_category` builds. -/
def categoryPayloadOf (siteId name : String) : CategoryPayload :=
  { siteId := siteId, name := name }

/-- The category-listing step of `_ensure_category`: fetch the site's
categories and cache each under `(site_id, name.lower())`. -/
def fetch_categories_into_cache (g : Gateway) (siteId : String) (s : SeederState) :
    Except SeedErr Unit × SeederState :=
  let s1 := recordReq (.getCategories siteId) s
  match g.getCategories s.trace.length siteId with
  | .error err => (.error (.http err.status err.body), s1)
  | .ok cats =>
    (.ok (), cats.foldl
      (fun st c =>
        { st with category_cache := ((siteId, pylower c.name), c) :: st.category_cache })
      s1)

/-- The creation tail of `_ensure_category`, reached on a double cache
miss: post the category (no recovery on a failing create), cache it, and
refresh the filter cache when the row carries filter definitions. -/
def ensure_category_create (dry : Bool) (g : Gateway) (siteId category_name : String)
    (filter_definitions : List FilterDefinition) (s1 : SeederState) :
    Except SeedErr Category × SeederState :=
  let ck := (siteId, pylower category_name)
  let payload := categoryPayloadOf siteId category_name
  let created : Except SeedErr Category × SeederState :=
    if dry then (.ok { id := "dry-cat-" ++ category_name, name := category_name }, s1)
    else
      let s2 := recordReq (.postCategory payload) s1
      match g.postCategory s1.trace.length payload with
      | .error err => (.error (.http err.status err.body), s2)
      | .ok c => (.ok c, s2)
  match created with
  | (.error e, s2) => (.error e, s2)
  | (.ok category, s2) =>
    let s3 := { s2 with category_cache := (ck, category) :: s2.category_cache }
    if !filter_definitions.isEmpty && !dry then
      match refresh_filters dry g (some siteId) s3 with
      | (.error e, s4) => (.error e, s4)
      | (.ok (), s4) => (.ok category, s4)
    else (.ok category, s3)

/-- `Seeder._ensure_category`: cache, then fetch the site's categories into
the cache and re-check, then create (`ensure_category_create`). -/
def ensure_category (dry : Bool) (g : Gateway) (siteId category_name : String)
    (filter_definitions : List FilterDefinition) (s : SeederState) :
    Except SeedErr Category × SeederState :=
  let ck := (siteId, pylower category_name)
  match alookup ck s.category_cache with
  | some c => (.ok c, s)
  | none =>
    let fetched : Except SeedErr Unit × SeederState :=
      if dry then (.ok (), s) else fetch_categories_into_cache g siteId s
    match fetched with
    | (.error e, s1) => (.error e, s1)
    | (.ok (), s1) =>
      match alookup ck s1.category_cache with
      | some c => (.ok c, s1)
      | none => ensure_category_create dry g siteId category_name filter_definitions s1

/-- The filter payload `_ensure_filter_definitions` builds from one
definition. -/
def filterPayloadOf (siteId categoryId : String) (d : FilterDefinition) : FilterPayload :=
  { siteId := pyOr d.siteId siteId, categoryId := categoryId,
    key := d.key, type := d.type, displayName := d.displayName,
    unit := d.unit, values := d.values,
    minValue := d.minValue, maxValue := d.maxValue }

/-- `Seeder._ensure_filter_definitions`: for each definition whose cache
key is absent, create the filter (no recovery on a failing create) and
cache the result. -/
def ensure_filter_definitions (dry : Bool) (g : Gateway) (siteId categoryId : String) :
    List FilterDefinition → SeederState → Except SeedErr Unit × SeederState
  | [], s => (.ok (), s)
  | d :: rest, s =>
    let ck := filter_cache_key categoryId d.key
    match alookup ck s.filter_cache with
    | some _ => ensure_filter_definitions dry g siteId categoryId rest s
    | none =>
      if dry then
        ensure_filter_definitions dry g siteId categoryId rest
          { s with filter_cache :=
              (ck, ({ id := "dry-filter-" ++ d.key, key := d.key, type := d.type } :
                CreatedFilter)) :: s.filter_cache }
      else
        let payload := filterPayloadOf siteId categoryId d
        let s1 := recordReq (.postFilter payload) s
        match g.postFilter s.trace.length payload with
        | .error err => (.error (.http err.status err.body), s1)
        | .ok created =>
          ensure_filter_definitions dry g siteId categoryId rest
            { s1 with filter_cache :=
                (ck, ({ id := created.id, key := created.key, type := created.type } :
                  CreatedFilter)) :: s1.filter_cache }

/-- The assignment-building loop of `_ensure_filters_and_map_assignments`:
look every product filter key up in the cache (a miss is a `RuntimeError`)
and build the per-type assignment. -/
def mapAssignments (categoryId : String) (fc : List ((String × String) × CreatedFilter)) :
    List (String × String) → Except SeedErr (List FilterAssignment)
  | [] => .ok []
  | (key, value) :: rest =>
    match alookup (filter_cache_key categoryId key) fc with
    | none => .error (.runtime ("No filter '" ++ key ++ "' found for category " ++ categoryId))
    | some cf =>
      let a : FilterAssignment :=
        if cf.type == "QUANTITATIVE" then
          { filterId := cf.id, numericValue := some value, textValue := none }
        else
          { filterId := cf.id, numericValue := none, textValue := some value }
      match mapAssignments categoryId fc rest with
      | .error e => .error e
      | .ok as_ => .ok (a :: as_)

/-- `Seeder._ensure_filters_and_map_assignments`: refresh the filter cache,
ensure the row's filter definitions, then map the row's product filters to
assignments. -/
def ensure_filters_and_map_assignments (dry : Bool) (g : Gateway)
    (siteId categoryId : String) (row : Row) (s : SeederState) :
    Except SeedErr (List FilterAssignment) × SeederState :=
  let refreshed : Except SeedErr Unit × SeederState :=
    if dry then (.ok (), s) else refresh_filters dry g (some siteId) s
  match refreshed with
  | (.error e, s1) => (.error e, s1)
  | (.ok (), s1) =>
    match ensure_filter_definitions dry g siteId categoryId row.filter_definitions s1 with
    | (.error e, s2) => (.error e, s2)
    | (.ok (), s2) =>
      (mapAssignments categoryId s2.filter_cache row.product_filters, s2)

/-- The product payload `_create_product` builds from a row. -/
def productPayload (siteId categoryId : String) (row : Row)
    (filter_assignments : List FilterAssignment) : ProductPayload :=
  { siteId := siteId, name := row.product_name,
    description := row.product_description, images := row.product_images,
    categoryIds := [categoryId], sku := row.product_sku,
    status := row.product_status, filters := filter_assignments,
    scheduledPublishAt := row.product_scheduled_publish_at }

/-- `Seeder._create_product`: post the product and return
`str(response.json().get("id"))` (`str(None)` is `"None"`). -/
def create_product (dry : Bool) (g : Gateway) (siteId categoryId : String) (row : Row)
    (filter_assignments : List FilterAssignment) (s : SeederState) :
    Except SeedErr String × SeederState :=
  let payload := productPayload siteId categoryId row filter_assignments
  if dry then (.ok ("dry-product-" ++ row.product_sku), s)
  else
    let s1 := recordReq (.postProduct payload) s
    match g.postProduct s.trace.length payload with
    | .error err => (.error (.http err.status err.body), s1)
    | .ok idOpt => (.ok (match idOpt with | some i => i | none => "None"), s1)

/-- The price payload `_create_price` builds from a row. -/
def pricePayload (productId : String) (row : Row) : PricePayload :=
  { productId := productId, amount := row.price_amount,
    currency := row.price_currency, effectiveFrom := row.price_effective_from,
    effectiveTo := row.price_effective_to }

/-- `Seeder._create_price`. -/
def create_price (dry : Bool) (g : Gateway) (productId : String) (row : Row)
    (s : SeederState) : Except SeedErr Unit × SeederState :=
  let payload := pricePayload productId row
  if dry then (.ok (), s)
  else
    let s1 := recordReq (.postPrice payload) s
    match g.postPrice s.trace.length payload with
    | .error err => (.error (.http err.status err.body), s1)
    | .ok () => (.ok (), s1)

/-- The inventory payload `_create_inventory` builds from a row. -/
def invPayload (productId : String) (row : Row) : InvPayload :=
  { productId := productId, initialQuantity := row.inventory_initial_quantity }

/-- `Seeder._create_inventory`. -/
def create_inventory (dry : Bool) (g : Gateway) (productId : String) (row : Row)
    (s : SeederState) : Except SeedErr Unit × SeederState :=
  let payload := invPayload productId row
  if dry then (.ok (), s)
  else
    let s1 := recordReq (.postInventory payload) s
    match g.postInventory s.trace.length payload with
    | .error err => (.error (.http err.status err.body), s1)
    | .ok () => (.ok (), s1)

/-- The body of the `process_rows` loop for one row: the six steps in
source order. -/
def process_row (dry : Bool) (g : Gateway) (row : Row) (s : SeederState) :
    Except SeedErr Unit × SeederState :=
  match ensure_site dry g row s with
  | (.error e, s1) => (.error e, s1)
  | (.ok site, s1) =>
    match ensure_category dry g site.id row.category_name row.filter_definitions s1 with
    | (.error e, s2) => (.error e, s2)
    | (.ok category, s2) =>
      match ensure_filters_and_map_assignments dry g site.id category.id row s2 with
      | (.error e, s3) => (.error e, s3)
      | (.ok filter_assignments, s3) =>
        match create_product dry g site.id category.id row filter_assignments s3 with
        | (.error e, s4) => (.error e, s4)
        | (.ok product_id, s4) =>
          match create_price dry g product_id row s4 with
          | (.error e, s5) => (.error e, s5)
          | (.ok (), s5) => create_inventory dry g product_id row s5

/-- `Seeder.process_rows`. -/
def process_rows (dry : Bool) (g : Gateway) :
    List Row → SeederState → Except SeedErr Unit × SeederState
  | [], s => (.ok (), s)
  | row :: rest, s =>
    match process_row dry g row s with
    | (.error e, s1) => (.error e, s1)
    | (.ok (), s1) => process_rows dry g rest s1

/-- Rendering of an escaping exception, as `__main__` logs it. -/
def seedErrMsg : SeedErr → String
  | .http st b => "HTTP " ++ Nat.repr st ++ ": " ++ b
  | .runtime m => m

/-- `main` after argument parsing: load and validate every row, then run
the seeder; the resulting state records every request issued. -/
def runMain (dry : Bool) (g : Gateway) (raws : List RawRow) :
    Except String Unit × SeederState :=
  match load_rows raws with
  | .error e => (.error e, initState)
  | .ok rows =>
    match process_rows dry g rows initState with
    | (.ok (), s) => (.ok (), s)
    | (.error e, s) => (.error (seedErrMsg e), s)

/-! ## Lemmas about the dict and sorting models -/

theorem charListLe_total : ∀ a b : List Char, charListLe a b = true ∨ charListLe b a = true := by
  intro a
  induction a with
  | nil => intro b; left; rfl
  | cons x xs ih =>
    intro b
    cases b with
    | nil => right; rfl
    | cons y ys =>
      by_cases h1 : x.val < y.val
      · left; simp [charListLe, h1]
      · by_cases h2 : y.val < x.val
        · right; simp [charListLe, h2]
        · cases ih ys with
          | inl h => left; simp [charListLe, h1, h2, h]
          | inr h => right; simp [charListLe, h1, h2, h]

theorem strLe_total (a b : String) : strLe a b = true ∨ strLe b a = true :=
  charListLe_total a.data b.data

theorem keysSorted_insertSorted {β : Type} (x : String × β) :
    ∀ l : List (String × β), keysSorted l → keysSorted (insertSorted x l) := by
  intro l
  induction l with
  | nil => intro _; exact trivial
  | cons y ys ih =>
    intro hs
    by_cases h : strLe x.1 y.1 = true
    · have he : insertSorted x (y :: ys) = x :: y :: ys := by simp [insertSorted, h]
      rw [he]; exact ⟨h, hs⟩
    · have hyx : strLe y.1 x.1 = true := (strLe_total x.1 y.1).resolve_left h
      cases ys with
      | nil =>
        have he : insertSorted x [y] = [y, x] := by simp [insertSorted, h]
        rw [he]; exact ⟨hyx, trivial⟩
      | cons z zs =>
        obtain ⟨hyz, hrest⟩ := hs
        have hzi := ih hrest
        by_cases hxz : strLe x.1 z.1 = true
        · have he : insertSorted x (y :: z :: zs) = y :: x :: z :: zs := by
            simp [insertSorted, h, hxz]
          rw [he]; exact ⟨hyx, hxz, hrest⟩
        · have he : insertSorted x (y :: z :: zs) = y :: z :: insertSorted x zs := by
            simp [insertSorted, h, hxz]
          have he2 : insertSorted x (z :: zs) = z :: insertSorted x zs := by
            simp [insertSorted, hxz]
          rw [he2] at hzi
          rw [he]; exact ⟨hyz, hzi⟩

theorem keysSorted_sortByKey {β : Type} (l : List (String × β)) :
    keysSorted (sortByKey l) := by
  induction l with
  | nil => exact trivial
  | cons x xs ih => exact keysSorted_insertSorted x _ ih

theorem strsSorted_insertStr (x : String) :
    ∀ l : List String, strsSorted l → strsSorted (insertStr x l) := by
  intro l
  induction l with
  | nil => intro _; exact trivial
  | cons y ys ih =>
    intro hs
    by_cases h : strLe x y = true
    · have he : insertStr x (y :: ys) = x :: y :: ys := by simp [insertStr, h]
      rw [he]; exact ⟨h, hs⟩
    · have hyx : strLe y x = true := (strLe_total x y).resolve_left h
      cases ys with
      | nil =>
        have he : insertStr x [y] = [y, x] := by simp [insertStr, h]
        rw [he]; exact ⟨hyx, trivial⟩
      | cons z zs =>
        obtain ⟨hyz, hrest⟩ := hs
        have hzi := ih hrest
        by_cases hxz : strLe x z = true
        · have he : insertStr x (y :: z :: zs) = y :: x :: z :: zs := by
            simp [insertStr, h, hxz]
          rw [he]; exact ⟨hyx, hxz, hrest⟩
        · have he : insertStr x (y :: z :: zs) = y :: z :: insertStr x zs := by
            simp [insertStr, h, hxz]
          have he2 : insertStr x (z :: zs) = z :: insertStr x zs := by
            simp [insertStr, hxz]
          rw [he2] at hzi
          rw [he]; exact ⟨hyz, hzi⟩

theorem strsSorted_sortStrs (l : List String) : strsSorted (sortStrs l) := by
  induction l with
  | nil => exact trivial
  | cons x xs ih => exact strsSorted_insertStr x _ ih

theorem mem_insertStr (x a : String) (l : List String) :
    a ∈ insertStr x l ↔ a = x ∨ a ∈ l := by
  induction l with
  | nil => simp [insertStr]
  | cons y ys ih =>
    by_cases h : strLe x y = true
    · simp [insertStr, h]
    · simp only [insertStr, h, Bool.false_eq_true, ite_false, List.mem_cons, ih]
      tauto

theorem mem_sortStrs (a : String) (l : List String) : a ∈ sortStrs l ↔ a ∈ l := by
  induction l with
  | nil => exact Iff.rfl
  | cons x xs ih =>
    simp only [sortStrs, List.foldr_cons]
    rw [mem_insertStr]
    simp only [List.mem_cons]
    rw [show List.foldr insertStr [] xs = sortStrs xs from rfl, ih]

theorem insertStr_ne_nil (x : String) (l : List String) : insertStr x l ≠ [] := by
  cases l with
  | nil => simp [insertStr]
  | cons y ys =>
    by_cases h : strLe x y = true
    · simp [insertStr, h]
    · simp [insertStr, h]

theorem sortStrs_eq_nil_iff (l : List String) : sortStrs l = [] ↔ l = [] := by
  cases l with
  | nil => simp [sortStrs]
  | cons x xs =>
    simp only [sortStrs, List.foldr_cons]
    constructor
    · intro h; exact absurd h (insertStr_ne_nil x _)
    · intro h; exact absurd h (by simp)

theorem alookup_eq_some_mem {α β : Type} [DecidableEq α] {k : α} {v : β} :
    ∀ {l : List (α × β)}, alookup k l = some v → (k, v) ∈ l := by
  intro l
  induction l with
  | nil => intro h; exact absurd h (by simp [alookup])
  | cons x xs ih =>
    intro h
    by_cases he : x.1 = k
    · have : some x.2 = some v := by
        simpa [alookup, he] using h
      have hv : x.2 = v := by injection this
      have hx : x = (k, v) := by
        cases x with
        | mk a b => simp_all
      rw [hx]
      exact List.mem_cons_self _ _
    · right
      exact ih (by simpa [alookup, he] using h)

theorem mem_dictInsert {α β : Type} [DecidableEq α] (k : α) (v : β) :
    ∀ (l : List (α × β)) (x : α × β), x ∈ dictInsert k v l → x = (k, v) ∨ x ∈ l := by
  intro l
  induction l with
  | nil => intro x h; simpa [dictInsert] using h
  | cons y ys ih =>
    intro x h
    by_cases he : y.1 = k
    · rcases (by simpa [dictInsert, he] using h : x = (k, v) ∨ x ∈ ys) with h1 | h1
      · exact .inl h1
      · exact .inr (.tail _ h1)
    · rcases (by simpa [dictInsert, he] using h : x = y ∨ x ∈ dictInsert k v ys) with h1 | h1
      · exact .inr (h1 ▸ List.mem_cons_self y ys)
      · rcases ih x h1 with h2 | h2
        · exact .inl h2
        · exact .inr (.tail _ h2)

theorem alookup_dictInsert_isSome {α β : Type} [DecidableEq α] (q k : α) (v : β) :
    ∀ l : List (α × β),
      (alookup q (dictInsert k v l)).isSome = true ↔
        k = q ∨ (alookup q l).isSome = true := by
  intro l
  induction l with
  | nil => by_cases h : k = q <;> simp [dictInsert, alookup, h]
  | cons y ys ih =>
    by_cases he : y.1 = k
    · by_cases hq : k = q
      · simp [dictInsert, alookup, he, hq]
      · have : ¬ y.1 = q := by rw [he]; exact hq
        simp [dictInsert, alookup, he, hq, this]
    · by_cases hyq : y.1 = q
      · have hqk : ¬ q = k := fun hh => he (by rw [hyq, hh])
        simp [dictInsert, alookup, he, hyq, hqk]
      · simp [dictInsert, alookup, he, hyq, ih]

theorem listHas_iff (l : List String) (x : String) : listHas l x = true ↔ x ∈ l := by
  induction l with
  | nil => simp [listHas]
  | cons y ys ih =>
    simp only [listHas, List.any_cons, Bool.or_eq_true, beq_iff_eq, List.mem_cons]
    rw [show ys.any (fun y => y == x) = listHas ys x from rfl, ih]
    tauto

theorem alookup_dictInsert_self {α β : Type} [DecidableEq α] (k : α) (v : β) :
    ∀ l : List (α × β), alookup k (dictInsert k v l) = some v := by
  intro l
  induction l with
  | nil => simp [dictInsert, alookup]
  | cons y ys ih =>
    by_cases he : y.1 = k
    · simp [dictInsert, alookup, he]
    · simp [dictInsert, alookup, he, ih]

theorem alookup_dictInsert_ne {α β : Type} [DecidableEq α] (k k' : α) (v : β)
    (h : ¬ k' = k) : ∀ l : List (α × β), alookup k' (dictInsert k v l) = alookup k' l := by
  have h2 : ¬ k = k' := fun hh => h hh.symm
  intro l
  induction l with
  | nil => simp [dictInsert, alookup, h2]
  | cons y ys ih =>
    by_cases he : y.1 = k
    · have h3 : ¬ y.1 = k' := by rw [he]; exact h2
      simp [dictInsert, alookup, he, h3, h2]
    · by_cases hyk : y.1 = k'
      · simp [dictInsert, alookup, he, hyk, h, h2]
      · simp [dictInsert, alookup, he, hyk, ih]

/-! ## Lemmas about `build_service_locks` -/

theorem mem_buildFold (md : List (String × ImageMetadata)) (filt : Option (List String))
    (reg : String) (dtp : Option String) :
    ∀ (commits : List (String × String)) (acc : List (String × ServiceLock))
      (n : String) (lock : ServiceLock),
      (n, lock) ∈ commits.foldl (buildLockStep md filt reg dtp) acc →
      (n, lock) ∈ acc ∨
        ∃ p sha, (p, sha) ∈ commits ∧ n = pathName p ∧
          lock = lockFor md reg dtp p sha ∧ skippedByFilter filt n = false := by
  intro commits
  induction commits with
  | nil => intro acc n lock h; exact .inl h
  | cons e rest ih =>
    intro acc n lock h
    rw [List.foldl_cons] at h
    rcases ih _ n lock h with hacc | ⟨p, sha, hm, hn, hlock, hsk⟩
    · cases hskip : skippedByFilter filt (pathName e.1) with
      | true =>
        rw [show buildLockStep md filt reg dtp acc e = acc by
          simp [buildLockStep, hskip]] at hacc
        exact .inl hacc
      | false =>
        rw [show buildLockStep md filt reg dtp acc e =
            dictInsert (pathName e.1) (lockFor md reg dtp e.1 e.2) acc by
          simp [buildLockStep, hskip]] at hacc
        rcases mem_dictInsert _ _ _ _ hacc with heq | hmem2
        · right
          have h1 : n = pathName e.1 := congrArg Prod.fst heq
          have h2 : lock = lockFor md reg dtp e.1 e.2 := congrArg Prod.snd heq
          exact ⟨e.1, e.2, List.mem_cons_self _ _, h1, h2, h1 ▸ hskip⟩
        · exact .inl hmem2
    · exact .inr ⟨p, sha, List.mem_cons_of_mem _ hm, hn, hlock, hsk⟩

theorem alookup_buildFold (md : List (String × ImageMetadata)) (filt : Option (List String))
    (reg : String) (dtp : Option String) (q : String)
    (hq : skippedByFilter filt q = false) :
    ∀ (commits : List (String × String)) (acc : List (String × ServiceLock)),
      (alookup q (commits.foldl (buildLockStep md filt reg dtp) acc)).isSome = true ↔
        (alookup q acc).isSome = true ∨ ∃ p sha, (p, sha) ∈ commits ∧ pathName p = q := by
  intro commits
  induction commits with
  | nil => intro acc; simp
  | cons e rest ih =>
    intro acc
    rw [List.foldl_cons, ih]
    obtain ⟨e1, e2⟩ := e
    cases hskip : skippedByFilter filt (pathName e1) with
    | true =>
      have hne : pathName e1 ≠ q := by
        intro hh
        rw [hh, hq] at hskip
        exact Bool.false_ne_true hskip
      rw [show buildLockStep md filt reg dtp acc (e1, e2) = acc by
        simp [buildLockStep, hskip]]
      constructor
      · rintro (h | ⟨p, sha, hm, hp⟩)
        · exact .inl h
        · exact .inr ⟨p, sha, List.mem_cons_of_mem _ hm, hp⟩
      · rintro (h | ⟨p, sha, hm, hp⟩)
        · exact .inl h
        · rcases List.mem_cons.mp hm with he2 | hm2
          · have hp1 : p = e1 := congrArg Prod.fst he2
            exact absurd (hp1 ▸ hp) hne
          · exact .inr ⟨p, sha, hm2, hp⟩
    | false =>
      rw [show buildLockStep md filt reg dtp acc (e1, e2) =
          dictInsert (pathName e1) (lockFor md reg dtp e1 e2) acc by
        simp [buildLockStep, hskip]]
      rw [alookup_dictInsert_isSome]
      constructor
      · rintro ((h | h) | ⟨p, sha, hm, hp⟩)
        · exact .inr ⟨e1, e2, List.mem_cons_self _ _, h⟩
        · exact .inl h
        · exact .inr ⟨p, sha, List.mem_cons_of_mem _ hm, hp⟩
      · rintro (h | ⟨p, sha, hm, hp⟩)
        · exact .inl (.inr h)
        · rcases List.mem_cons.mp hm with he2 | hm2
          · have hp1 : p = e1 := congrArg Prod.fst he2
            exact .inl (.inl (hp1 ▸ hp))
          · exact .inr ⟨p, sha, hm2, hp⟩

theorem build_service_locks_ok (commits : List (String × String))
    (md : List (String × ImageMetadata)) (filt : Option (List String))
    (reg : String) (dtp : Option String) (locks : List (String × ServiceLock))
    (h : build_service_locks commits md filt reg dtp = .ok locks) :
    locks = commits.foldl (buildLockStep md filt reg dtp) [] := by
  simp only [build_service_locks] at h
  split at h
  · split at h
    · injection h with h'; exact h'.symm
    · exact absurd h (by simp)
  · injection h with h'; exact h'.symm

theorem str_empty_append (s : String) : "" ++ s = s := rfl

theorem finalTag_default (dtp : Option String) (rep sha : String) :
    finalTag { repository := rep, tag := none, digest := none, tagPre := dtp } sha
      = dtp.getD "" ++ pytake 7 sha := by
  cases dtp with
  | none => simp [finalTag, truthyStr, str_empty_append]
  | some pre =>
    by_cases hp : pre = ""
    · subst hp; simp [finalTag, truthyStr, str_empty_append]
    · simp [finalTag, truthyStr, hp]

/-- C5: for a submodule with no image-metadata entry, the lock falls back to
the computed default: repository `<default_registry>/<service_name>` with
the service name the last component of the submodule path, and tag the
first 7 characters of the commit SHA prefixed by the default tag-prefix
when one is given. -/
theorem c5_default_image_fallback
    (commits : List (String × String)) (md : List (String × ImageMetadata))
    (filt : Option (List String)) (reg : String) (dtp : Option String)
    (locks : List (String × ServiceLock)) (n : String) (lock : ServiceLock)
    (hok : build_service_locks commits md filt reg dtp = .ok locks)
    (hmem : (n, lock) ∈ locks)
    (hmd : alookup n md = none) :
    ∃ path sha, (path, sha) ∈ commits ∧ n = pathName path ∧
      lock.submodule_path = path ∧ lock.git_sha = sha ∧
      lock.image.repository = reg ++ "/" ++ n ∧
      lock.image.tag = some (dtp.getD "" ++ pytake 7 sha) := by
  have hl := build_service_locks_ok _ _ _ _ _ _ hok
  subst hl
  rcases mem_buildFold md filt reg dtp commits [] n lock hmem with h0 | ⟨p, sha, hm, hn, hlock, _⟩
  · exact absurd h0 (List.not_mem_nil _)
  · subst hn
    subst hlock
    have hres : resolvedMeta md reg dtp p =
        { repository := reg ++ "/" ++ pathName p, tag := none, digest := none, tagPre := dtp } := by
      unfold resolvedMeta
      rw [hmd]
      rfl
    refine ⟨p, sha, hm, rfl, rfl, rfl, ?_, ?_⟩
    · simp [lockFor, hres]
    · simp [lockFor, hres, finalTag_default]

/-- C5 witness: a concrete run with one submodule, no metadata, and default
tag-prefix `main-` produces the computed default repository and tag. -/
theorem c5_default_image_fallback_witness :
    ∃ path sha, (path, sha) ∈ [("services/catalog", "0123456789abcdef")] ∧
      "catalog" = pathName path ∧
      ({ submodule_path := "services/catalog", git_sha := "0123456789abcdef",
         image := { repository := "ghcr.io/shopifake/catalog",
                    tag := some "main-0123456" } } : ServiceLock).submodule_path = path ∧
      ({ submodule_path := "services/catalog", git_sha := "0123456789abcdef",
         image := { repository := "ghcr.io/shopifake/catalog",
                    tag := some "main-0123456" } } : ServiceLock).git_sha = sha ∧
      ({ submodule_path := "services/catalog", git_sha := "0123456789abcdef",
         image := { repository := "ghcr.io/shopifake/catalog",
                    tag := some "main-0123456" } } : ServiceLock).image.repository
        = "ghcr.io/shopifake" ++ "/" ++ "catalog" ∧
      ({ submodule_path := "services/catalog", git_sha := "0123456789abcdef",
         image := { repository := "ghcr.io/shopifake/catalog",
                    tag := some "main-0123456" } } : ServiceLock).image.tag
        = some ((some "main-").getD "" ++ pytake 7 sha) :=
  c5_default_image_fallback [("services/catalog", "0123456789abcdef")] [] none
    "ghcr.io/shopifake" (some "main-")
    [("catalog",
      { submodule_path := "services/catalog", git_sha := "0123456789abcdef",
        image := { repository := "ghcr.io/shopifake/catalog", tag := some "main-0123456" } })]
    "catalog"
    { submodule_path := "services/catalog", git_sha := "0123456789abcdef",
      image := { repository := "ghcr.io/shopifake/catalog", tag := some "main-0123456" } }
    (by rfl) (List.mem_cons_self _ _) (by rfl)

/-- C10: a metadata entry with a truthy `tag_prefix` forces the resolved
tag to `tag_prefix + sha[:7]`, even when the entry also carries an explicit
tag; an explicit tag survives as-is exactly when the entry's `tag_prefix`
is not truthy. -/
theorem c10_tag_pre_wins
    (commits : List (String × String)) (md : List (String × ImageMetadata))
    (filt : Option (List String)) (reg : String) (dtp : Option String)
    (locks : List (String × ServiceLock)) (n : String) (lock : ServiceLock)
    (im : ImageMetadata)
    (hok : build_service_locks commits md filt reg dtp = .ok locks)
    (hmem : (n, lock) ∈ locks)
    (hmd : alookup n md = some im) :
    (truthyStr im.tagPre = true →
       lock.image.tag = some (im.tagPre.getD "" ++ pytake 7 lock.git_sha)) ∧
    (truthyStr im.tagPre = false → ∀ t, im.tag = some t → lock.image.tag = some t) := by
  have hl := build_service_locks_ok _ _ _ _ _ _ hok
  subst hl
  rcases mem_buildFold md filt reg dtp commits [] n lock hmem with h0 | ⟨p, sha, hm, hn, hlock, _⟩
  · exact absurd h0 (List.not_mem_nil _)
  · subst hn
    subst hlock
    have hres : resolvedMeta md reg dtp p = im := by
      unfold resolvedMeta
      rw [hmd]
      rfl
    constructor
    · intro htr
      simp [lockFor, hres, finalTag, htr]
    · intro hfa t ht
      simp [lockFor, hres, finalTag, hfa, ht]

/-- C10 witness: a metadata entry with both an explicit tag and a
tag-prefix resolves to the prefixed short SHA, and one with only an
explicit tag keeps it. -/
theorem c10_tag_pre_wins_witness :
    (truthyStr (some "rel-") = true →
       (some "rel-0123456" : Option String)
         = some ((some "rel-").getD "" ++ pytake 7 "0123456789abcdef")) ∧
    (truthyStr (some "rel-") = false →
       ∀ t, (some "v9" : Option String) = some t →
         (some "rel-0123456" : Option String) = some t) := by
  have h := c10_tag_pre_wins [("services/catalog", "0123456789abcdef")]
    [("catalog", { repository := "example.io/cat", tag := some "v9", tagPre := some "rel-" })]
    none "ghcr.io/shopifake" none
    [("catalog",
      { submodule_path := "services/catalog", git_sha := "0123456789abcdef",
        image := { repository := "example.io/cat", tag := some "rel-0123456" } })]
    "catalog"
    { submodule_path := "services/catalog", git_sha := "0123456789abcdef",
      image := { repository := "example.io/cat", tag := some "rel-0123456" } }
    { repository := "example.io/cat", tag := some "v9", tagPre := some "rel-" }
    (by rfl) (List.mem_cons_self _ _) (by rfl)
  exact h

/-- C7 counterexample: in a concrete run (one submodule, no metadata) the
serialized lock entry carries only `submodule_path`, `git_sha` and `image`
— no `notes` field — and its image mapping carries only `repository` and
`tag` — no `digest` — contradicting the claimed shape. -/
theorem c7_counterexample :
    build_service_locks [("services/catalog", "0123456789abcdef")] [] none
        "ghcr.io/shopifake" none
      = .ok [("catalog",
          { submodule_path := "services/catalog", git_sha := "0123456789abcdef",
            image := { repository := "ghcr.io/shopifake/catalog",
                       tag := some "0123456" } })] ∧
    (({ submodule_path := "services/catalog", git_sha := "0123456789abcdef",
        image := { repository := "ghcr.io/shopifake/catalog", tag := some "0123456" } } :
        ServiceLock).to_mapping.map Prod.fst)
      = ["submodule_path", "git_sha", "image"] ∧
    (({ repository := "ghcr.io/shopifake/catalog", tag := some "0123456" } :
        ImageMetadata).to_mapping.map Prod.fst)
      = ["repository", "tag"] := by
  refine ⟨by rfl, by rfl, by rfl⟩

/-- C7 amended: every lock produced by `build_service_locks` serializes to
a mapping whose keys are exactly `submodule_path`, `git_sha` and `image`
(`notes` is always `None` at generation time and therefore omitted), and
whose image mapping always carries `repository`, carries `tag` unless the
resolved tag is the empty string, and carries `digest` only when the
metadata supplies a truthy digest. -/
theorem c7_amended_serialized_shape
    (commits : List (String × String)) (md : List (String × ImageMetadata))
    (filt : Option (List String)) (reg : String) (dtp : Option String)
    (locks : List (String × ServiceLock)) (n : String) (lock : ServiceLock)
    (hok : build_service_locks commits md filt reg dtp = .ok locks)
    (hmem : (n, lock) ∈ locks) :
    lock.notes = none ∧
    lock.to_mapping.map Prod.fst = ["submodule_path", "git_sha", "image"] ∧
    ∃ t, lock.image.tag = some t ∧
      lock.image.to_mapping.map Prod.fst =
        ["repository"] ++ (if t = "" then [] else ["tag"])
          ++ (if truthyStr lock.image.digest then ["digest"] else []) := by
  have hl := build_service_locks_ok _ _ _ _ _ _ hok
  subst hl
  rcases mem_buildFold md filt reg dtp commits [] n lock hmem with h0 | ⟨p, sha, hm, hn, hlock, _⟩
  · exact absurd h0 (List.not_mem_nil _)
  · subst hlock
    refine ⟨rfl, ?_, finalTag (resolvedMeta md reg dtp p) sha, rfl, ?_⟩
    · simp [ServiceLock.to_mapping, lockFor, truthyStr]
    · by_cases ht : finalTag (resolvedMeta md reg dtp p) sha = ""
      · simp [ImageMetadata.to_mapping, lockFor, truthyStr, ht]
        split <;> rfl
      · simp [ImageMetadata.to_mapping, lockFor, truthyStr, ht]
        split <;> rfl

/-- C7 amended witness: the concrete one-submodule run instantiates the
amended shape. -/
theorem c7_amended_serialized_shape_witness :
    ({ submodule_path := "services/catalog", git_sha := "0123456789abcdef",
       image := { repository := "ghcr.io/shopifake/catalog", tag := some "0123456" } } :
       ServiceLock).notes = none ∧
    ({ submodule_path := "services/catalog", git_sha := "0123456789abcdef",
       image := { repository := "ghcr.io/shopifake/catalog", tag := some "0123456" } } :
       ServiceLock).to_mapping.map Prod.fst = ["submodule_path", "git_sha", "image"] ∧
    ∃ t,
      ({ submodule_path := "services/catalog", git_sha := "0123456789abcdef",
         image := { repository := "ghcr.io/shopifake/catalog", tag := some "0123456" } } :
         ServiceLock).image.tag = some t ∧
      ({ submodule_path := "services/catalog", git_sha := "0123456789abcdef",
         image := { repository := "ghcr.io/shopifake/catalog", tag := some "0123456" } } :
         ServiceLock).image.to_mapping.map Prod.fst =
        ["repository"] ++ (if t = "" then [] else ["tag"])
          ++ (if truthyStr (none : Option String) then ["digest"] else []) :=
  c7_amended_serialized_shape [("services/catalog", "0123456789abcdef")] [] none
    "ghcr.io/shopifake" none
    [("catalog",
      { submodule_path := "services/catalog", git_sha := "0123456789abcdef",
        image := { repository := "ghcr.io/shopifake/catalog", tag := some "0123456" } })]
    "catalog"
    { submodule_path := "services/catalog", git_sha := "0123456789abcdef",
      image := { repository := "ghcr.io/shopifake/catalog", tag := some "0123456" } }
    (by rfl) (List.mem_cons_self _ _)

/-- C9: with a non-empty `services_filter`, `build_service_locks` returns
exactly the requested names appearing among the submodules (and no
others), and raises — if and only if some requested name matches no
submodule — an error listing the missing names in sorted order. -/
theorem c9_services_filter
    (commits : List (String × String)) (md : List (String × ImageMetadata))
    (reg : String) (dtp : Option String) (l : List String) (hl : l ≠ []) :
    (∀ locks, build_service_locks commits md (some l) reg dtp = .ok locks →
       (∀ n lock, (n, lock) ∈ locks → n ∈ l) ∧
       (∀ q, q ∈ l → ∃ lock, (q, lock) ∈ locks)) ∧
    ((∃ e, build_service_locks commits md (some l) reg dtp = .error e) ↔
       ∃ q, q ∈ l ∧ ∀ p sha, (p, sha) ∈ commits → pathName p ≠ q) ∧
    (∀ e, build_service_locks commits md (some l) reg dtp = .error e →
       ∃ ms, e = "Requested services missing from submodules: " ++ joinComma ms ∧
         strsSorted ms ∧
         ∀ x, x ∈ ms ↔ (x ∈ l ∧ ∀ p sha, (p, sha) ∈ commits → pathName p ≠ x)) := by
  have hact : filterActive (some l) = true := by
    cases l with
    | nil => exact absurd rfl hl
    | cons a as => rfl
  have hskipf : ∀ q, q ∈ l → skippedByFilter (some l) q = false := by
    intro q hq
    have hhas : listHas l q = true := (listHas_iff l q).mpr hq
    simp [skippedByFilter, hhas]
  have hbuild : build_service_locks commits md (some l) reg dtp =
      (if (sortStrs ((l.filter (fun q =>
            (alookup q (commits.foldl (buildLockStep md (some l) reg dtp) [])).isNone)).dedup)).isEmpty
       then .ok (commits.foldl (buildLockStep md (some l) reg dtp) [])
       else .error ("Requested services missing from submodules: " ++
         joinComma (sortStrs ((l.filter (fun q =>
           (alookup q (commits.foldl (buildLockStep md (some l) reg dtp) [])).isNone)).dedup)))) := by
    cases l with
    | nil => exact absurd rfl hl
    | cons a as => rfl
  set L := commits.foldl (buildLockStep md (some l) reg dtp) [] with hL
  set ms0 := sortStrs ((l.filter (fun q => (alookup q L).isNone)).dedup) with hms0
  have hkey : ∀ q, q ∈ l →
      ((alookup q L).isSome = true ↔ ∃ p sha, (p, sha) ∈ commits ∧ pathName p = q) := by
    intro q hq
    rw [hL, alookup_buildFold md (some l) reg dtp q (hskipf q hq) commits []]
    simp [alookup]
  have hkey2 : ∀ q, q ∈ l →
      ((alookup q L).isNone = true ↔ ∀ p sha, (p, sha) ∈ commits → pathName p ≠ q) := by
    intro q hq
    constructor
    · intro hn p sha hm hp
      have hs : (alookup q L).isSome = true := (hkey q hq).mpr ⟨p, sha, hm, hp⟩
      cases halo : alookup q L with
      | none => rw [halo] at hs; exact absurd hs (by simp)
      | some v => rw [halo] at hn; exact absurd hn (by simp)
    · intro hall
      cases halo : alookup q L with
      | none => rfl
      | some v =>
        have hs : (alookup q L).isSome = true := by rw [halo]; rfl
        obtain ⟨p, sha, hm, hp⟩ := (hkey q hq).mp hs
        exact absurd hp (hall p sha hm)
  have hmemms : ∀ x, x ∈ ms0 ↔ (x ∈ l ∧ (alookup x L).isNone = true) := by
    intro x
    rw [hms0, mem_sortStrs, List.mem_dedup, List.mem_filter]
  have hmem2 : ∀ x, x ∈ ms0 ↔ (x ∈ l ∧ ∀ p sha, (p, sha) ∈ commits → pathName p ≠ x) := by
    intro x
    rw [hmemms x]
    constructor
    · rintro ⟨hx, hn⟩; exact ⟨hx, (hkey2 x hx).mp hn⟩
    · rintro ⟨hx, hn⟩; exact ⟨hx, (hkey2 x hx).mpr hn⟩
  have hemp : ms0.isEmpty = true ↔ ms0 = [] := by
    cases ms0 <;> simp
  refine ⟨?_, ?_, ?_⟩
  · intro locks hok
    rw [hbuild] at hok
    by_cases he : ms0.isEmpty = true
    · rw [if_pos he] at hok
      injection hok with hok'
      subst hok'
      constructor
      · intro n lock hmem
        rw [hL] at hmem
        rcases mem_buildFold md (some l) reg dtp commits [] n lock hmem with
          h0 | ⟨p, sha, hm, hn, hlock, hsk⟩
        · exact absurd h0 (List.not_mem_nil _)
        · have : listHas l n = true := by
            by_contra hc
            have hc2 : listHas l n = false := by
              cases hh : listHas l n with
              | true => exact absurd hh hc
              | false => rfl
            rw [skippedByFilter, hact, hc2] at hsk
            exact absurd hsk (by simp)
          exact (listHas_iff l n).mp this
      · intro q hq
        have hnotin : q ∉ ms0 := by
          rw [hemp] at he
          rw [he]
          exact List.not_mem_nil q
        cases halo : alookup q L with
        | some lock => exact ⟨lock, alookup_eq_some_mem halo⟩
        | none =>
          exact absurd ((hmemms q).mpr ⟨hq, by rw [halo]; rfl⟩) hnotin
    · rw [if_neg he] at hok
      exact absurd hok (by simp)
  · constructor
    · rintro ⟨e, herr⟩
      rw [hbuild] at herr
      by_cases he : ms0.isEmpty = true
      · rw [if_pos he] at herr; exact absurd herr (by simp)
      · have hne : ms0 ≠ [] := fun hh => he (hemp.mpr hh)
        cases hm : ms0 with
        | nil => exact absurd hm hne
        | cons x xs =>
          have hx : x ∈ ms0 := by rw [hm]; exact List.mem_cons_self _ _
          obtain ⟨hxl, hxn⟩ := (hmem2 x).mp hx
          exact ⟨x, hxl, hxn⟩
    · rintro ⟨q, hq, hnomatch⟩
      have hqin : q ∈ ms0 := (hmem2 q).mpr ⟨hq, hnomatch⟩
      have hne : ¬ ms0.isEmpty = true := by
        intro hh
        rw [hemp.mp hh] at hqin
        exact absurd hqin (List.not_mem_nil q)
      refine ⟨"Requested services missing from submodules: " ++ joinComma ms0, ?_⟩
      rw [hbuild, if_neg hne]
  · intro e herr
    rw [hbuild] at herr
    by_cases he : ms0.isEmpty = true
    · rw [if_pos he] at herr; exact absurd herr (by simp)
    · rw [if_neg he] at herr
      injection herr with herr'
      refine ⟨ms0, herr'.symm, ?_, hmem2⟩
      rw [hms0]
      exact strsSorted_sortStrs _

/-- C9 witness: a concrete one-submodule, one-name filter run. -/
theorem c9_services_filter_witness :
    (∀ locks, build_service_locks [("services/a", "shaA")] [] (some ["a"]) "reg" none
        = .ok locks →
       (∀ n lock, (n, lock) ∈ locks → n ∈ ["a"]) ∧
       (∀ q, q ∈ ["a"] → ∃ lock, (q, lock) ∈ locks)) ∧
    ((∃ e, build_service_locks [("services/a", "shaA")] [] (some ["a"]) "reg" none
        = .error e) ↔
       ∃ q, q ∈ ["a"] ∧ ∀ p sha, (p, sha) ∈ [("services/a", "shaA")] → pathName p ≠ q) ∧
    (∀ e, build_service_locks [("services/a", "shaA")] [] (some ["a"]) "reg" none
        = .error e →
       ∃ ms, e = "Requested services missing from submodules: " ++ joinComma ms ∧
         strsSorted ms ∧
         ∀ x, x ∈ ms ↔
           (x ∈ ["a"] ∧ ∀ p sha, (p, sha) ∈ [("services/a", "shaA")] → pathName p ≠ x)) :=
  c9_services_filter [("services/a", "shaA")] [] "reg" none ["a"] (by simp)

theorem dump_lock_ok (payload : List (String × PayloadVal)) (out : String) (force : Bool)
    (fs : FS) (r : FS × String) (h : dump_lock payload out force fs = .ok r) :
    r.2 = out ∧ r.1.read? out = some (dumpPayload payload ++ "\n") ∧
    ∀ q, ¬ q = out → r.1.read? q = fs.read? q := by
  unfold dump_lock at h
  split at h
  · exact absurd h (by simp)
  · injection h with h'
    subst h'
    refine ⟨rfl, ?_, ?_⟩
    · exact alookup_dictInsert_self out _ fs.files
    · intro q hq
      exact alookup_dictInsert_ne out q _ hq fs.files

theorem keysSorted_map_val {β γ : Type} (f : String × β → γ) :
    ∀ l : List (String × β), keysSorted l → keysSorted (l.map (fun kv => (kv.1, f kv))) := by
  intro l
  induction l with
  | nil => intro _; exact trivial
  | cons x xs ih =>
    intro hs
    cases xs with
    | nil => exact trivial
    | cons y ys =>
      obtain ⟨hxy, hrest⟩ := hs
      exact ⟨hxy, ih hrest⟩

/-- C6: the lock output is deterministic — a successful `dump_lock` writes
exactly the serialised payload (sorted keys, two-space indentation, as the
serialisers define) followed by a newline, two successful runs on equal
payloads write byte-identical contents, the payload's `services` section is
keyed in sorted order, and every serialised object sorts its keys. -/
theorem c6_deterministic_output :
    (∀ payload out force fs r, dump_lock payload out force fs = .ok r →
        r.1.read? out = some (dumpPayload payload ++ "\n")) ∧
    (∀ payload out1 out2 f1 f2 fs1 fs2 r1 r2,
        dump_lock payload out1 f1 fs1 = .ok r1 →
        dump_lock payload out2 f2 fs2 = .ok r2 →
        r1.1.read? out1 = r2.1.read? out2) ∧
    (∀ commits filt md gid gat br cm reg dtp payload,
        build_lock_payload commits filt md gid gat br cm reg dtp = .ok payload →
        ∃ kvs, alookup "services" payload = some (.lockMap kvs) ∧ keysSorted kvs) ∧
    (∀ (β : Type) (kvs : List (String × β)), keysSorted (sortByKey kvs)) := by
  refine ⟨?_, ?_, ?_, ?_⟩
  · intro payload out force fs r h
    exact (dump_lock_ok payload out force fs r h).2.1
  · intro payload out1 out2 f1 f2 fs1 fs2 r1 r2 h1 h2
    rw [(dump_lock_ok _ _ _ _ _ h1).2.1, (dump_lock_ok _ _ _ _ _ h2).2.1]
  · intro commits filt md gid gat br cm reg dtp payload h
    unfold build_lock_payload at h
    cases hb : build_service_locks commits md filt reg dtp with
    | error e => rw [hb] at h; exact absurd h (by simp)
    | ok service_locks =>
      rw [hb] at h
      injection h with h'
      subst h'
      refine ⟨(sortByKey service_locks).map (fun nl => (nl.1, nl.2.to_mapping)), ?_, ?_⟩
      · simp [alookup]
      · exact keysSorted_map_val _ _ (keysSorted_sortByKey _)
  · intro β kvs
    exact keysSorted_sortByKey kvs

/-- C6 witness: a concrete successful dump writes the serialised payload
followed by a newline. -/
theorem c6_deterministic_output_witness :
    ((⟨[("locks/lock.yml", dumpPayload [] ++ "\n")]⟩ : FS), "locks/lock.yml").1.read?
        "locks/lock.yml" = some (dumpPayload [] ++ "\n") :=
  c6_deterministic_output.1 [] "locks/lock.yml" true ⟨[]⟩
    (⟨[("locks/lock.yml", dumpPayload [] ++ "\n")]⟩, "locks/lock.yml") (by rfl)

/-- C8: `dump_lock` refuses to overwrite — with the output present and
`force` false it raises the `FileExistsError` (leaving the file system
untouched, since no updated state is produced); with `force` true or the
file absent it writes the payload at the output path and changes no other
path. -/
theorem c8_dump_lock_no_overwrite (payload : List (String × PayloadVal)) (out : String)
    (force : Bool) (fs : FS) :
    ((fs.read? out).isSome = true → force = false →
       dump_lock payload out force fs = .error ("Lock file already exists: " ++ out)) ∧
    (force = true ∨ fs.read? out = none →
       ∃ fs', dump_lock payload out force fs = .ok (fs', out) ∧
         fs'.read? out = some (dumpPayload payload ++ "\n") ∧
         ∀ q, ¬ q = out → fs'.read? q = fs.read? q) := by
  constructor
  · intro hex hfo
    unfold dump_lock
    rw [hex, hfo]
    simp
  · intro hokc
    have hcond : ((fs.read? out).isSome && !force) = false := by
      rcases hokc with hf | hn
      · rw [hf]; simp
      · rw [hn]; simp
    unfold dump_lock
    rw [hcond]
    refine ⟨_, rfl, ?_, ?_⟩
    · exact alookup_dictInsert_self out _ fs.files
    · intro q hq
      exact alookup_dictInsert_ne out q _ hq fs.files

/-- C8 witness: dumping to an absent path on an empty file system
succeeds and writes the payload. -/
theorem c8_dump_lock_no_overwrite_witness :
    ∃ fs', dump_lock [] "locks/a.yml" false ⟨[]⟩ = .ok (fs', "locks/a.yml") ∧
      fs'.read? "locks/a.yml" = some (dumpPayload [] ++ "\n") ∧
      ∀ q, ¬ q = "locks/a.yml" → fs'.read? q = (⟨[]⟩ : FS).read? q :=
  (c8_dump_lock_no_overwrite [] "locks/a.yml" false ⟨[]⟩).2 (.inr rfl)

/-! ## C2: eager CSV validation -/

/-- A raw row with a missing required field in the sense of the claim: an
empty site/category/product string field, no product image after
splitting, or a missing price amount, price currency or initial inventory
quantity. -/
def rowMissingRequired (raw : RawRow) : Bool :=
  (pystrip (raw.site_key.getD "") == "") ||
  (pystrip (raw.site_name.getD "") == "") ||
  (pystrip (raw.site_slug.getD "") == "") ||
  (pystrip (raw.site_description.getD "") == "") ||
  (pystrip (raw.site_currency.getD "") == "") ||
  (pystrip (raw.site_language.getD "") == "") ||
  (pystrip (raw.site_config.getD "") == "") ||
  (pystrip (raw.category_name.getD "") == "") ||
  (pystrip (raw.product_name.getD "") == "") ||
  (pystrip (raw.product_description.getD "") == "") ||
  (pystrip (raw.product_sku.getD "") == "") ||
  (imagesOf raw).isEmpty ||
  (pystrip (raw.price_amount.getD "") == "") ||
  (pystrip (raw.price_currency.getD "") == "") ||
  (pystrip (raw.inventory_initial_quantity.getD "") == "")

theorem filter_map_isEmpty {α β : Type} (f : α → β) (p : α → Bool) :
    ∀ l : List α, ((l.filter p).map f).isEmpty = true ↔ ∀ x ∈ l, p x = false := by
  intro l
  induction l with
  | nil => simp
  | cons y ys ih =>
    cases hy : p y with
    | true =>
      have hfl : (y :: ys).filter p = y :: ys.filter p := by simp [List.filter_cons, hy]
      rw [hfl]
      simp only [List.map_cons, List.isEmpty_cons]
      constructor
      · intro hh; exact absurd hh (by simp)
      · intro hall
        have h2 := hall y (List.mem_cons_self _ _)
        rw [hy] at h2
        exact absurd h2 (by simp)
    | false =>
      have hfl : (y :: ys).filter p = ys.filter p := by simp [List.filter_cons, hy]
      rw [hfl, ih]
      constructor
      · intro hall x hx
        rcases List.mem_cons.mp hx with rfl | hm
        · exact hy
        · exact hall x hm
      · intro hall x hx
        exact hall x (List.mem_cons_of_mem _ hx)

theorem missingFields_isEmpty_fields (r : Row) (h : (missingFields r).isEmpty = true) :
    (r.site_key == "") = false ∧ (r.site_name == "") = false ∧ (r.site_slug == "") = false ∧
    (r.site_description == "") = false ∧ (r.site_currency == "") = false ∧
    (r.site_language == "") = false ∧ (r.site_config == "") = false ∧
    (r.category_name == "") = false ∧ (r.product_name == "") = false ∧
    (r.product_description == "") = false ∧ r.product_images.isEmpty = false ∧
    (r.product_sku == "") = false ∧ (r.product_status == "") = false ∧
    (r.price_currency == "") = false := by
  have h2 : (((requiredScan r).filter (fun kv => kv.2)).map
      (fun kv : String × Bool => kv.1)).isEmpty = true := h
  have hall : ∀ x ∈ requiredScan r, x.2 = false :=
    (filter_map_isEmpty (fun kv : String × Bool => kv.1) (fun kv => kv.2)
      (requiredScan r)).mp h2
  exact ⟨hall ("site_key", r.site_key == "") (by simp [requiredScan]),
    hall ("site_name", r.site_name == "") (by simp [requiredScan]),
    hall ("site_slug", r.site_slug == "") (by simp [requiredScan]),
    hall ("site_description", r.site_description == "") (by simp [requiredScan]),
    hall ("site_currency", r.site_currency == "") (by simp [requiredScan]),
    hall ("site_language", r.site_language == "") (by simp [requiredScan]),
    hall ("site_config", r.site_config == "") (by simp [requiredScan]),
    hall ("category_name", r.category_name == "") (by simp [requiredScan]),
    hall ("product_name", r.product_name == "") (by simp [requiredScan]),
    hall ("product_description", r.product_description == "") (by simp [requiredScan]),
    hall ("product_images", r.product_images.isEmpty) (by simp [requiredScan]),
    hall ("product_sku", r.product_sku == "") (by simp [requiredScan]),
    hall ("product_status", r.product_status == "") (by simp [requiredScan]),
    hall ("price_currency", r.price_currency == "") (by simp [requiredScan])⟩

theorem normalize_row_missing (raw : RawRow) (h : rowMissingRequired raw = true) :
    ∃ e, normalize_row raw = .error e := by
  cases hres : normalize_row raw with
  | error e => exact ⟨e, rfl⟩
  | ok r =>
    exfalso
    simp only [normalize_row] at hres
    set r0 := buildRow raw (imagesOf raw) with hr0
    split at hres
    · exact absurd hres (by simp)
    next h1 =>
    split at hres
    · exact absurd hres (by simp)
    next h2 =>
    split at hres
    · exact absurd hres (by simp)
    next h3 =>
    split at hres
    · exact absurd hres (by simp)
    next h4 =>
    split at hres
    · exact absurd hres (by simp)
    next h5 =>
    have h3a : r0.price_amount.isNone = false := by
      cases hb : r0.price_amount.isNone with
      | false => rfl
      | true => exact absurd (by simp [hb]) h3
    have h3b : ¬ r0.price_currency = "" := by
      intro hc
      exact h3 (by simp [hc])
    have h4a : r0.inventory_initial_quantity.isNone = false := by
      cases hb : r0.inventory_initial_quantity.isNone with
      | false => rfl
      | true => exact absurd hb h4
    have hemp : (missingFields r0).isEmpty = true := by
      cases hbb : (missingFields r0).isEmpty with
      | true => rfl
      | false => exact absurd (by rw [hbb]; rfl) h5
    obtain ⟨f1, f2, f3, f4, f5, f6, f7, f8, f9, f10, f11, f12, f13, f14⟩ :=
      missingFields_isEmpty_fields r0 hemp
    simp only [rowMissingRequired, Bool.or_eq_true] at h
    rcases h with
      ((((((((((((((hk|hk)|hk)|hk)|hk)|hk)|hk)|hk)|hk)|hk)|hk)|hk)|hk)|hk)|hk)
    · have hx : (r0.site_key == "") = true := by rw [hr0]; exact hk
      exact Bool.noConfusion (hx.symm.trans f1)
    · have hx : (r0.site_name == "") = true := by rw [hr0]; exact hk
      exact Bool.noConfusion (hx.symm.trans f2)
    · have hx : (r0.site_slug == "") = true := by rw [hr0]; exact hk
      exact Bool.noConfusion (hx.symm.trans f3)
    · have hx : (r0.site_description == "") = true := by rw [hr0]; exact hk
      exact Bool.noConfusion (hx.symm.trans f4)
    · have hx : (r0.site_currency == "") = true := by rw [hr0]; exact hk
      exact Bool.noConfusion (hx.symm.trans f5)
    · have hx : (r0.site_language == "") = true := by rw [hr0]; exact hk
      exact Bool.noConfusion (hx.symm.trans f6)
    · have hx : (r0.site_config == "") = true := by rw [hr0]; exact hk
      exact Bool.noConfusion (hx.symm.trans f7)
    · have hx : (r0.category_name == "") = true := by rw [hr0]; exact hk
      exact Bool.noConfusion (hx.symm.trans f8)
    · have hx : (r0.product_name == "") = true := by rw [hr0]; exact hk
      exact Bool.noConfusion (hx.symm.trans f9)
    · have hx : (r0.product_description == "") = true := by rw [hr0]; exact hk
      exact Bool.noConfusion (hx.symm.trans f10)
    · have hx : (r0.product_sku == "") = true := by rw [hr0]; exact hk
      exact Bool.noConfusion (hx.symm.trans f12)
    · have hx : r0.product_images.isEmpty = true := by rw [hr0]; exact hk
      exact Bool.noConfusion (hx.symm.trans f11)
    · have hs : pystrip (raw.price_amount.getD "") = "" := eq_of_beq hk
      have hx : r0.price_amount.isNone = true := by
        rw [hr0]
        simp [buildRow, hs]
      exact Bool.noConfusion (hx.symm.trans h3a)
    · have hs : pystrip (raw.price_currency.getD "") = "" := eq_of_beq hk
      exact h3b (by rw [hr0]; exact hs)
    · have hs : pystrip (raw.inventory_initial_quantity.getD "") = "" := eq_of_beq hk
      have hx : r0.inventory_initial_quantity.isNone = true := by
        rw [hr0]
        simp [buildRow, hs]
      exact Bool.noConfusion (hx.symm.trans h4a)

theorem loadRowsAux_error_of_bad :
    ∀ (raws : List RawRow) (idx i : Nat) (hi : i < raws.length),
      (∃ e0, normalize_row (raws.get ⟨i, hi⟩) = .error e0) →
      ∃ j e, j ≤ i ∧ loadRowsAux idx raws = .error
        ("Failed to parse CSV row " ++ Nat.repr (idx + j) ++ ": " ++ e) := by
  intro raws
  induction raws with
  | nil => intro idx i hi; exact absurd hi (by simp)
  | cons raw rest ih =>
    intro idx i hi hbad
    cases hn : normalize_row raw with
    | error e =>
      refine ⟨0, e, Nat.zero_le _, ?_⟩
      simp [loadRowsAux, hn]
    | ok row =>
      cases i with
      | zero =>
        obtain ⟨e0, he0⟩ := hbad
        rw [show (raw :: rest).get ⟨0, hi⟩ = raw from rfl, hn] at he0
        exact absurd he0 (by simp)
      | succ i0 =>
        have hi0 : i0 < rest.length := Nat.lt_of_succ_lt_succ hi
        obtain ⟨j, e, hj, hrec⟩ := ih (idx + 1) i0 hi0 (by
          obtain ⟨e0, he0⟩ := hbad
          rw [show (raw :: rest).get ⟨i0 + 1, hi⟩ = rest.get ⟨i0, hi0⟩ from rfl] at he0
          exact ⟨e0, he0⟩)
        refine ⟨j + 1, e, Nat.succ_le_succ hj, ?_⟩
        rw [show idx + (j + 1) = (idx + 1) + j from by omega]
        simp [loadRowsAux, hn, hrec]

theorem loadRowsAux_ok_all :
    ∀ (raws : List RawRow) (idx : Nat) (rows : List Row),
      loadRowsAux idx raws = .ok rows →
      ∀ i (hi : i < raws.length), ∃ row, normalize_row (raws.get ⟨i, hi⟩) = .ok row := by
  intro raws
  induction raws with
  | nil => intro idx rows h i hi; exact absurd hi (by simp)
  | cons raw rest ih =>
    intro idx rows h i hi
    simp only [loadRowsAux] at h
    cases hn : normalize_row raw with
    | error e => rw [hn] at h; exact absurd h (by simp)
    | ok row =>
      rw [hn] at h
      cases hrec : loadRowsAux (idx + 1) rest with
      | error e => rw [hrec] at h; exact absurd h (by simp)
      | ok rows0 =>
        cases i with
        | zero => exact ⟨row, hn⟩
        | succ i0 =>
          have hi0 : i0 < rest.length := Nat.lt_of_succ_lt_succ hi
          exact ih (idx + 1) rows0 hrec i0 hi0

/-- C2: CSV rows are validated eagerly — a successful `load_rows` has
normalized every row, and a row with a missing required field makes
`load_rows` raise a `ValueError` naming a row number no later than that
row's, return no rows, and leave the seeder with no HTTP request issued. -/
theorem c2_eager_validation :
    (∀ raws rows, load_rows raws = .ok rows →
       ∀ i (hi : i < raws.length), ∃ row, normalize_row (raws.get ⟨i, hi⟩) = .ok row) ∧
    (∀ raws i (hi : i < raws.length), rowMissingRequired (raws.get ⟨i, hi⟩) = true →
       (∃ j e, j ≤ i ∧
          load_rows raws = .error ("Failed to parse CSV row " ++ Nat.repr (2 + j) ++ ": " ++ e)) ∧
       (∀ rows, ¬ load_rows raws = .ok rows) ∧
       (∀ dry g, (runMain dry g raws).2.trace = [])) := by
  constructor
  · intro raws rows h i hi
    exact loadRowsAux_ok_all raws 2 rows h i hi
  · intro raws i hi hmiss
    have hbad := normalize_row_missing _ hmiss
    obtain ⟨j, e, hj, herr⟩ := loadRowsAux_error_of_bad raws 2 i hi hbad
    have herr2 : load_rows raws =
        .error ("Failed to parse CSV row " ++ Nat.repr (2 + j) ++ ": " ++ e) := herr
    refine ⟨⟨j, e, hj, herr2⟩, ?_, ?_⟩
    · intro rows hok
      rw [herr2] at hok
      exact absurd hok (by simp)
    · intro dry g
      simp only [runMain]
      rw [herr2]
      rfl

/-- A well-formed raw CSV row used to instantiate the seeder theorems. -/
def sampleRaw : RawRow :=
  { site_key := some "k", site_name := some "Shop",
    site_slug := some "shop", site_description := some "d",
    site_currency := some "EUR", site_language := some "en",
    site_config := some "cfg", category_name := some "Books",
    product_name := some "P", product_description := some "pd",
    product_images := some "http://a|http://b", product_sku := some "SKU1",
    price_amount := some "9.99", price_currency := some "EUR",
    inventory_initial_quantity := some "5" }

/-- C2 witness: a concrete row lacking `price_amount` is rejected with the
row number, and the run issues no request. -/
theorem c2_eager_validation_witness :
    (∃ j e, j ≤ 0 ∧
       load_rows [{ sampleRaw with price_amount := none }]
         = .error ("Failed to parse CSV row " ++ Nat.repr (2 + j) ++ ": " ++ e)) ∧
    (∀ rows, ¬ load_rows [{ sampleRaw with price_amount := none }] = .ok rows) ∧
    (∀ dry g,
      (runMain dry g [{ sampleRaw with price_amount := none }]).2.trace = []) :=
  c2_eager_validation.2 [{ sampleRaw with price_amount := none }] 0 (by simp) (by rfl)

/-! ## C3: the in-memory caches only grow, and cache hits issue no requests -/

/-- The caches of `s'` extend those of `s`: entries are only ever added at
the front, so anything cached stays cached. -/
def cacheExtends (s s' : SeederState) : Prop :=
  (∃ a, s'.site_cache = a ++ s.site_cache) ∧
  (∃ b, s'.category_cache = b ++ s.category_cache) ∧
  (∃ c, s'.filter_cache = c ++ s.filter_cache)

theorem cacheExtends_refl (s : SeederState) : cacheExtends s s :=
  ⟨⟨[], rfl⟩, ⟨[], rfl⟩, ⟨[], rfl⟩⟩

theorem cacheExtends_trans {s1 s2 s3 : SeederState}
    (h1 : cacheExtends s1 s2) (h2 : cacheExtends s2 s3) : cacheExtends s1 s3 := by
  obtain ⟨⟨a1, ha1⟩, ⟨b1, hb1⟩, ⟨c1, hc1⟩⟩ := h1
  obtain ⟨⟨a2, ha2⟩, ⟨b2, hb2⟩, ⟨c2, hc2⟩⟩ := h2
  refine ⟨⟨a2 ++ a1, ?_⟩, ⟨b2 ++ b1, ?_⟩, ⟨c2 ++ c1, ?_⟩⟩
  · rw [ha2, ha1, List.append_assoc]
  · rw [hb2, hb1, List.append_assoc]
  · rw [hc2, hc1, List.append_assoc]

theorem foldl_cat_cons_extends {α : Type} (g : α → ((String × String) × Category)) :
    ∀ (l : List α) (s : SeederState),
      cacheExtends s (l.foldl
        (fun st x => { st with category_cache := g x :: st.category_cache }) s) := by
  intro l
  induction l with
  | nil => intro s; exact cacheExtends_refl s
  | cons x xs ih =>
    intro s
    rw [List.foldl_cons]
    exact cacheExtends_trans
      (⟨⟨[], rfl⟩, ⟨[g x], rfl⟩, ⟨[], rfl⟩⟩ :
        cacheExtends s { s with category_cache := g x :: s.category_cache })
      (ih _)

theorem foldl_filt_cons_extends {α : Type} (g : α → ((String × String) × CreatedFilter)) :
    ∀ (l : List α) (s : SeederState),
      cacheExtends s (l.foldl
        (fun st x => { st with filter_cache := g x :: st.filter_cache }) s) := by
  intro l
  induction l with
  | nil => intro s; exact cacheExtends_refl s
  | cons x xs ih =>
    intro s
    rw [List.foldl_cons]
    exact cacheExtends_trans
      (⟨⟨[], rfl⟩, ⟨[], rfl⟩, ⟨[g x], rfl⟩⟩ :
        cacheExtends s { s with filter_cache := g x :: s.filter_cache })
      (ih _)

theorem fetch_site_extends (g : Gateway) (slug : String) (s : SeederState) :
    cacheExtends s (fetch_site_by_slug g slug s).2 := by
  cases hg : g.getSiteBySlug s.trace.length slug with
  | ok site =>
    have heq : (fetch_site_by_slug g slug s).2 = recordReq (.getSiteBySlug slug) s := by
      simp only [fetch_site_by_slug]
      rw [hg]
    rw [heq]
    exact ⟨⟨[], rfl⟩, ⟨[], rfl⟩, ⟨[], rfl⟩⟩
  | error err =>
    have heq : (fetch_site_by_slug g slug s).2 = recordReq (.getSiteBySlug slug) s := by
      simp only [fetch_site_by_slug]
      rw [hg]
      dsimp only
      split <;> rfl
    rw [heq]
    exact ⟨⟨[], rfl⟩, ⟨[], rfl⟩, ⟨[], rfl⟩⟩

theorem refresh_filters_extends (dry : Bool) (g : Gateway) (siteId : Option String)
    (s : SeederState) : cacheExtends s (refresh_filters dry g siteId s).2 := by
  cases siteId with
  | none => exact cacheExtends_refl s
  | some sid =>
    cases dry with
    | true => exact cacheExtends_refl s
    | false =>
      cases hg : g.getFilters s.trace.length sid with
      | error err =>
        have heq : (refresh_filters false g (some sid) s).2
            = recordReq (.getFilters sid) s := by
          simp only [refresh_filters]
          rw [hg]
          rfl
        rw [heq]
        exact ⟨⟨[], rfl⟩, ⟨[], rfl⟩, ⟨[], rfl⟩⟩
      | ok entries =>
        have heq : (refresh_filters false g (some sid) s).2
            = entries.foldl
                (fun st e => { st with filter_cache :=
                  (filter_cache_key e.categoryId e.key,
                   ({ id := e.id, key := e.key, type := e.type } : CreatedFilter))
                    :: st.filter_cache })
                (recordReq (.getFilters sid) s) := by
          simp only [refresh_filters]
          rw [hg]
          rfl
        rw [heq]
        exact cacheExtends_trans
          (⟨⟨[], rfl⟩, ⟨[], rfl⟩, ⟨[], rfl⟩⟩ :
            cacheExtends s (recordReq (.getFilters sid) s))
          (foldl_filt_cons_extends _ entries (recordReq (.getFilters sid) s))

theorem create_product_extends (dry : Bool) (g : Gateway) (siteId categoryId : String)
    (row : Row) (fa : List FilterAssignment) (s : SeederState) :
    cacheExtends s (create_product dry g siteId categoryId row fa s).2 := by
  cases dry with
  | true => exact cacheExtends_refl s
  | false =>
    cases hg : g.postProduct s.trace.length (productPayload siteId categoryId row fa) with
    | error err =>
      have heq : (create_product false g siteId categoryId row fa s).2
          = recordReq (.postProduct (productPayload siteId categoryId row fa)) s := by
        simp only [create_product]
        rw [hg]
        rfl
      rw [heq]
      exact ⟨⟨[], rfl⟩, ⟨[], rfl⟩, ⟨[], rfl⟩⟩
    | ok idOpt =>
      have heq : (create_product false g siteId categoryId row fa s).2
          = recordReq (.postProduct (productPayload siteId categoryId row fa)) s := by
        simp only [create_product]
        rw [hg]
        rfl
      rw [heq]
      exact ⟨⟨[], rfl⟩, ⟨[], rfl⟩, ⟨[], rfl⟩⟩

theorem create_price_extends (dry : Bool) (g : Gateway) (productId : String)
    (row : Row) (s : SeederState) :
    cacheExtends s (create_price dry g productId row s).2 := by
  cases dry with
  | true => exact cacheExtends_refl s
  | false =>
    cases hg : g.postPrice s.trace.length (pricePayload productId row) with
    | error err =>
      have heq : (create_price false g productId row s).2
          = recordReq (.postPrice (pricePayload productId row)) s := by
        simp only [create_price]
        rw [hg]
        rfl
      rw [heq]
      exact ⟨⟨[], rfl⟩, ⟨[], rfl⟩, ⟨[], rfl⟩⟩
    | ok u =>
      have heq : (create_price false g productId row s).2
          = recordReq (.postPrice (pricePayload productId row)) s := by
        simp only [create_price]
        rw [hg]
        rfl
      rw [heq]
      exact ⟨⟨[], rfl⟩, ⟨[], rfl⟩, ⟨[], rfl⟩⟩

theorem create_inventory_extends (dry : Bool) (g : Gateway) (productId : String)
    (row : Row) (s : SeederState) :
    cacheExtends s (create_inventory dry g productId row s).2 := by
  cases dry with
  | true => exact cacheExtends_refl s
  | false =>
    cases hg : g.postInventory s.trace.length (invPayload productId row) with
    | error err =>
      have heq : (create_inventory false g productId row s).2
          = recordReq (.postInventory (invPayload productId row)) s := by
        simp only [create_inventory]
        rw [hg]
        rfl
      rw [heq]
      exact ⟨⟨[], rfl⟩, ⟨[], rfl⟩, ⟨[], rfl⟩⟩
    | ok u =>
      have heq : (create_inventory false g productId row s).2
          = recordReq (.postInventory (invPayload productId row)) s := by
        simp only [create_inventory]
        rw [hg]
        rfl
      rw [heq]
      exact ⟨⟨[], rfl⟩, ⟨[], rfl⟩, ⟨[], rfl⟩⟩

theorem ensure_site_recover_extends (g : Gateway) (row : Row) (s2 : SeederState) :
    cacheExtends s2 (ensure_site_recover g row s2).2 := by
  rcases hf : fetch_site_by_slug g row.site_slug s2 with ⟨res, s3⟩
  have hext : cacheExtends s2 s3 := by
    have h0 := fetch_site_extends g row.site_slug s2
    rw [hf] at h0
    exact h0
  cases res with
  | error e =>
    have heq : (ensure_site_recover g row s2).2 = s3 := by
      simp only [ensure_site_recover]
      rw [hf]
    rw [heq]
    exact hext
  | ok osite =>
    cases osite with
    | some site =>
      have heq : (ensure_site_recover g row s2).2
          = { s3 with site_cache := (siteCacheKey row, site) :: s3.site_cache } := by
        simp only [ensure_site_recover]
        rw [hf]
      rw [heq]
      exact cacheExtends_trans hext
        ⟨⟨[(siteCacheKey row, site)], rfl⟩, ⟨[], rfl⟩, ⟨[], rfl⟩⟩
    | none =>
      have heq : (ensure_site_recover g row s2).2 = s3 := by
        simp only [ensure_site_recover]
        rw [hf]
      rw [heq]
      exact hext

theorem ensure_site_create_err_extends (g : Gateway) (row : Row) (err : HErr)
    (s2 : SeederState) : cacheExtends s2 (ensure_site_create_err g row err s2).2 := by
  by_cases hcond : (err.status == 400 && strContains (pylower err.body) "slug") = true
  · have heq : ensure_site_create_err g row err s2 = ensure_site_recover g row s2 := by
      simp only [ensure_site_create_err]
      rw [if_pos hcond]
    rw [heq]
    exact ensure_site_recover_extends g row s2
  · have heq : (ensure_site_create_err g row err s2).2 = s2 := by
      simp only [ensure_site_create_err]
      rw [if_neg hcond]
    rw [heq]
    exact cacheExtends_refl s2

theorem ensure_site_create_extends (dry : Bool) (g : Gateway) (row : Row)
    (s1 : SeederState) : cacheExtends s1 (ensure_site_create dry g row s1).2 := by
  cases dry with
  | true =>
    exact ⟨⟨[(siteCacheKey row, { id := "dry-" ++ siteCacheKey row })], rfl⟩,
      ⟨[], rfl⟩, ⟨[], rfl⟩⟩
  | false =>
    cases hp : g.postSite s1.trace.length (sitePayloadOf row) with
    | ok site =>
      have heq : (ensure_site_create false g row s1).2
          = { recordReq (.postSite (sitePayloadOf row)) s1 with
              site_cache := (siteCacheKey row, site)
                :: (recordReq (.postSite (sitePayloadOf row)) s1).site_cache } := by
        simp only [ensure_site_create]
        rw [hp]
        rfl
      rw [heq]
      exact ⟨⟨[(siteCacheKey row, site)], rfl⟩, ⟨[], rfl⟩, ⟨[], rfl⟩⟩
    | error err =>
      have heq : ensure_site_create false g row s1
          = ensure_site_create_err g row err (recordReq (.postSite (sitePayloadOf row)) s1) := by
        simp only [ensure_site_create]
        rw [hp]
        rfl
      rw [heq]
      exact cacheExtends_trans
        (⟨⟨[], rfl⟩, ⟨[], rfl⟩, ⟨[], rfl⟩⟩ :
          cacheExtends s1 (recordReq (.postSite (sitePayloadOf row)) s1))
        (ensure_site_create_err_extends g row err _)

theorem ensure_site_extends (dry : Bool) (g : Gateway) (row : Row) (s : SeederState) :
    cacheExtends s (ensure_site dry g row s).2 := by
  cases halo : alookup (siteCacheKey row) s.site_cache with
  | some site =>
    have heq : ensure_site dry g row s = (.ok site, s) := by
      simp only [ensure_site]
      rw [halo]
    rw [heq]
    exact cacheExtends_refl s
  | none =>
    cases dry with
    | true =>
      have heq : ensure_site true g row s = ensure_site_create true g row s := by
        simp only [ensure_site]
        rw [halo]
        rfl
      rw [heq]
      exact ensure_site_create_extends true g row s
    | false =>
      rcases hf : fetch_site_by_slug g row.site_slug s with ⟨res, s1⟩
      have hext1 : cacheExtends s s1 := by
        have h0 := fetch_site_extends g row.site_slug s
        rw [hf] at h0
        exact h0
      cases res with
      | error e =>
        have heq : (ensure_site false g row s).2 = s1 := by
          simp only [ensure_site]
          rw [halo, hf]
          rfl
        rw [heq]
        exact hext1
      | ok osite =>
        cases osite with
        | some site =>
          have heq : (ensure_site false g row s).2
              = { s1 with site_cache := (siteCacheKey row, site) :: s1.site_cache } := by
            simp only [ensure_site]
            rw [halo, hf]
            rfl
          rw [heq]
          exact cacheExtends_trans hext1
            ⟨⟨[(siteCacheKey row, site)], rfl⟩, ⟨[], rfl⟩, ⟨[], rfl⟩⟩
        | none =>
          have heq : (ensure_site false g row s).2 = (ensure_site_create false g row s1).2 := by
            simp only [ensure_site]
            rw [halo, hf]
            rfl
          rw [heq]
          exact cacheExtends_trans hext1 (ensure_site_create_extends false g row s1)

theorem fetch_categories_extends (g : Gateway) (siteId : String) (s : SeederState) :
    cacheExtends s (fetch_categories_into_cache g siteId s).2 := by
  cases hg : g.getCategories s.trace.length siteId with
  | error err =>
    have heq : (fetch_categories_into_cache g siteId s).2
        = recordReq (.getCategories siteId) s := by
      simp only [fetch_categories_into_cache]
      rw [hg]
    rw [heq]
    exact ⟨⟨[], rfl⟩, ⟨[], rfl⟩, ⟨[], rfl⟩⟩
  | ok cats =>
    have heq : (fetch_categories_into_cache g siteId s).2
        = cats.foldl
            (fun st c =>
              { st with category_cache :=
                  ((siteId, pylower c.name), c) :: st.category_cache })
            (recordReq (.getCategories siteId) s) := by
      simp only [fetch_categories_into_cache]
      rw [hg]
    rw [heq]
    exact cacheExtends_trans
      (⟨⟨[], rfl⟩, ⟨[], rfl⟩, ⟨[], rfl⟩⟩ :
        cacheExtends s (recordReq (.getCategories siteId) s))
      (foldl_cat_cons_extends _ cats (recordReq (.getCategories siteId) s))

theorem ensure_category_create_extends (dry : Bool) (g : Gateway)
    (siteId category_name : String) (fd : List FilterDefinition) (s1 : SeederState) :
    cacheExtends s1 (ensure_category_create dry g siteId category_name fd s1).2 := by
  have hcons : ∀ (c : Category) (s2 : SeederState), cacheExtends s2
      { s2 with category_cache :=
          ((siteId, pylower category_name), c) :: s2.category_cache } :=
    fun c s2 => ⟨⟨[], rfl⟩, ⟨[((siteId, pylower category_name), c)], rfl⟩, ⟨[], rfl⟩⟩
  have htail : ∀ (c : Category) (s3 : SeederState), cacheExtends s3
      ((if !fd.isEmpty && !dry then
          match refresh_filters dry g (some siteId) s3 with
          | (.error e, s4) => ((.error e : Except SeedErr Category), s4)
          | (.ok (), s4) => (.ok c, s4)
        else (.ok c, s3)).2) := by
    intro c s3
    by_cases hfd : (!fd.isEmpty && !dry) = true
    · rw [if_pos hfd]
      rcases hr : refresh_filters dry g (some siteId) s3 with ⟨res, s4⟩
      have hext : cacheExtends s3 s4 := by
        have h0 := refresh_filters_extends dry g (some siteId) s3
        rw [hr] at h0
        exact h0
      cases res with
      | error e => exact hext
      | ok u => cases u; exact hext
    · rw [if_neg hfd]
      exact cacheExtends_refl s3
  cases dry with
  | true =>
    have heq : (ensure_category_create true g siteId category_name fd s1)
        = (if !fd.isEmpty && !true then
            match refresh_filters true g (some siteId)
                { s1 with category_cache :=
                    ((siteId, pylower category_name),
                     ({ id := "dry-cat-" ++ category_name, name := category_name } :
                       Category)) :: s1.category_cache } with
            | (.error e, s4) => ((.error e : Except SeedErr Category), s4)
            | (.ok (), s4) =>
              (.ok { id := "dry-cat-" ++ category_name, name := category_name }, s4)
          else
            (.ok { id := "dry-cat-" ++ category_name, name := category_name },
             { s1 with category_cache :=
                 ((siteId, pylower category_name),
                  ({ id := "dry-cat-" ++ category_name, name := category_name } :
                    Category)) :: s1.category_cache })) := by
      simp only [ensure_category_create, reduceIte]
    rw [heq]
    exact cacheExtends_trans (hcons _ s1) (htail _ _)
  | false =>
    cases hp : g.postCategory s1.trace.length (categoryPayloadOf siteId category_name) with
    | error err =>
      have heq : (ensure_category_create false g siteId category_name fd s1).2
          = recordReq (.postCategory (categoryPayloadOf siteId category_name)) s1 := by
        simp only [ensure_category_create, hp, reduceIte]
        rfl
      rw [heq]
      exact ⟨⟨[], rfl⟩, ⟨[], rfl⟩, ⟨[], rfl⟩⟩
    | ok c =>
      have heq : ensure_category_create false g siteId category_name fd s1
          = (if !fd.isEmpty && !false then
              match refresh_filters false g (some siteId)
                  { recordReq (.postCategory (categoryPayloadOf siteId category_name)) s1 with
                    category_cache :=
                      ((siteId, pylower category_name), c)
                        :: (recordReq (.postCategory (categoryPayloadOf siteId category_name))
                            s1).category_cache } with
              | (.error e, s4) => ((.error e : Except SeedErr Category), s4)
              | (.ok (), s4) => (.ok c, s4)
            else
              (.ok c,
               { recordReq (.postCategory (categoryPayloadOf siteId category_name)) s1 with
                 category_cache :=
                   ((siteId, pylower category_name), c)
                     :: (recordReq (.postCategory (categoryPayloadOf siteId category_name))
                         s1).category_cache })) := by
        simp only [ensure_category_create, hp, reduceIte]
        rfl
      rw [heq]
      exact cacheExtends_trans
        (⟨⟨[], rfl⟩, ⟨[], rfl⟩, ⟨[], rfl⟩⟩ :
          cacheExtends s1
            (recordReq (.postCategory (categoryPayloadOf siteId category_name)) s1))
        (cacheExtends_trans (hcons _ _) (htail _ _))

theorem ensure_category_extends (dry : Bool) (g : Gateway) (siteId category_name : String)
    (fd : List FilterDefinition) (s : SeederState) :
    cacheExtends s (ensure_category dry g siteId category_name fd s).2 := by
  cases halo : alookup (siteId, pylower category_name) s.category_cache with
  | some c =>
    have heq : ensure_category dry g siteId category_name fd s = (.ok c, s) := by
      simp only [ensure_category]
      rw [halo]
    rw [heq]
    exact cacheExtends_refl s
  | none =>
    cases dry with
    | true =>
      have heq : ensure_category true g siteId category_name fd s
          = ensure_category_create true g siteId category_name fd s := by
        simp only [ensure_category, halo, reduceIte]
      rw [heq]
      exact ensure_category_create_extends true g siteId category_name fd s
    | false =>
      rcases hf : fetch_categories_into_cache g siteId s with ⟨res, s1⟩
      have hext1 : cacheExtends s s1 := by
        have h0 := fetch_categories_extends g siteId s
        rw [hf] at h0
        exact h0
      cases res with
      | error e =>
        have heq : (ensure_category false g siteId category_name fd s).2 = s1 := by
          simp only [ensure_category, halo, hf, reduceIte]
          rfl
        rw [heq]
        exact hext1
      | ok u =>
        cases u
        have heq : ensure_category false g siteId category_name fd s
            = (match alookup (siteId, pylower category_name) s1.category_cache with
               | some c => ((.ok c : Except SeedErr Category), s1)
               | none => ensure_category_create false g siteId category_name fd s1) := by
          simp only [ensure_category, halo, hf, reduceIte]
          rfl
        rw [heq]
        cases halo2 : alookup (siteId, pylower category_name) s1.category_cache with
        | some c =>
          exact hext1
        | none =>
          exact cacheExtends_trans hext1
            (ensure_category_create_extends false g siteId category_name fd s1)

theorem ensure_filter_definitions_extends (dry : Bool) (g : Gateway)
    (siteId categoryId : String) :
    ∀ (defs : List FilterDefinition) (s : SeederState),
      cacheExtends s (ensure_filter_definitions dry g siteId categoryId defs s).2 := by
  intro defs
  induction defs with
  | nil => intro s; exact cacheExtends_refl s
  | cons d rest ih =>
    intro s
    cases halo : alookup (filter_cache_key categoryId d.key) s.filter_cache with
    | some f =>
      have heq : ensure_filter_definitions dry g siteId categoryId (d :: rest) s
          = ensure_filter_definitions dry g siteId categoryId rest s := by
        simp only [ensure_filter_definitions, halo]
      rw [heq]
      exact ih s
    | none =>
      cases dry with
      | true =>
        have heq : ensure_filter_definitions true g siteId categoryId (d :: rest) s
            = ensure_filter_definitions true g siteId categoryId rest
                { s with filter_cache :=
                    (filter_cache_key categoryId d.key,
                     ({ id := "dry-filter-" ++ d.key, key := d.key, type := d.type } :
                       CreatedFilter)) :: s.filter_cache } := by
          simp only [ensure_filter_definitions, halo, reduceIte]
        rw [heq]
        exact cacheExtends_trans
          (show cacheExtends s
              { s with filter_cache :=
                  (filter_cache_key categoryId d.key,
                   ({ id := "dry-filter-" ++ d.key, key := d.key, type := d.type } :
                     CreatedFilter)) :: s.filter_cache } from
            ⟨⟨[], rfl⟩, ⟨[], rfl⟩,
             ⟨[(filter_cache_key categoryId d.key,
                ({ id := "dry-filter-" ++ d.key, key := d.key, type := d.type } :
                  CreatedFilter))], rfl⟩⟩)
          (ih _)
      | false =>
        cases hp : g.postFilter s.trace.length (filterPayloadOf siteId categoryId d) with
        | error err =>
          have heq : (ensure_filter_definitions false g siteId categoryId (d :: rest) s).2
              = recordReq (.postFilter (filterPayloadOf siteId categoryId d)) s := by
            simp only [ensure_filter_definitions, halo, hp, reduceIte]
            rfl
          rw [heq]
          exact ⟨⟨[], rfl⟩, ⟨[], rfl⟩, ⟨[], rfl⟩⟩
        | ok created =>
          have heq : ensure_filter_definitions false g siteId categoryId (d :: rest) s
              = ensure_filter_definitions false g siteId categoryId rest
                  { recordReq (.postFilter (filterPayloadOf siteId categoryId d)) s with
                    filter_cache :=
                      (filter_cache_key categoryId d.key,
                       ({ id := created.id, key := created.key, type := created.type } :
                         CreatedFilter))
                        :: (recordReq (.postFilter (filterPayloadOf siteId categoryId d))
                            s).filter_cache } := by
            simp only [ensure_filter_definitions, halo, hp, reduceIte]
            rfl
          rw [heq]
          exact cacheExtends_trans
            (show cacheExtends s
                { recordReq (.postFilter (filterPayloadOf siteId categoryId d)) s with
                  filter_cache :=
                    (filter_cache_key categoryId d.key,
                     ({ id := created.id, key := created.key, type := created.type } :
                       CreatedFilter))
                      :: (recordReq (.postFilter (filterPayloadOf siteId categoryId d))
                          s).filter_cache } from
              ⟨⟨[], rfl⟩, ⟨[], rfl⟩,
               ⟨[(filter_cache_key categoryId d.key,
                  ({ id := created.id, key := created.key, type := created.type } :
                    CreatedFilter))], rfl⟩⟩)
            (ih _)

theorem ensure_filters_and_map_extends (dry : Bool) (g : Gateway)
    (siteId categoryId : String) (row : Row) (s : SeederState) :
    cacheExtends s
      (ensure_filters_and_map_assignments dry g siteId categoryId row s).2 := by
  cases dry with
  | true =>
    rcases hd : ensure_filter_definitions true g siteId categoryId
        row.filter_definitions s with ⟨res2, s2⟩
    have hext2 : cacheExtends s s2 := by
      have h0 := ensure_filter_definitions_extends true g siteId categoryId
        row.filter_definitions s
      rw [hd] at h0
      exact h0
    have heq0 : ensure_filters_and_map_assignments true g siteId categoryId row s
        = (match ensure_filter_definitions true g siteId categoryId
              row.filter_definitions s with
           | (.error e, s2) => ((.error e : Except SeedErr (List FilterAssignment)), s2)
           | (.ok (), s2) =>
             (mapAssignments categoryId s2.filter_cache row.product_filters, s2)) := by
      simp only [ensure_filters_and_map_assignments]
      rfl
    rw [heq0, hd]
    cases res2 with
    | error e => exact hext2
    | ok u => cases u; exact hext2
  | false =>
    rcases hr : refresh_filters false g (some siteId) s with ⟨res1, s1⟩
    have hext1 : cacheExtends s s1 := by
      have h0 := refresh_filters_extends false g (some siteId) s
      rw [hr] at h0
      exact h0
    cases res1 with
    | error e =>
      have heq : (ensure_filters_and_map_assignments false g siteId categoryId row s).2
          = s1 := by
        simp only [ensure_filters_and_map_assignments, hr]
        rfl
      rw [heq]
      exact hext1
    | ok u =>
      cases u
      rcases hd : ensure_filter_definitions false g siteId categoryId
          row.filter_definitions s1 with ⟨res2, s2⟩
      have hext2 : cacheExtends s1 s2 := by
        have h0 := ensure_filter_definitions_extends false g siteId categoryId
          row.filter_definitions s1
        rw [hd] at h0
        exact h0
      have heq0 : ensure_filters_and_map_assignments false g siteId categoryId row s
          = (match ensure_filter_definitions false g siteId categoryId
                row.filter_definitions s1 with
             | (.error e, s2) => ((.error e : Except SeedErr (List FilterAssignment)), s2)
             | (.ok (), s2) =>
               (mapAssignments categoryId s2.filter_cache row.product_filters, s2)) := by
        simp only [ensure_filters_and_map_assignments, hr]
        rfl
      rw [heq0, hd]
      cases res2 with
      | error e => exact cacheExtends_trans hext1 hext2
      | ok u => cases u; exact cacheExtends_trans hext1 hext2

theorem process_row_extends (dry : Bool) (g : Gateway) (row : Row) (s : SeederState) :
    cacheExtends s (process_row dry g row s).2 := by
  rcases h1 : ensure_site dry g row s with ⟨r1, s1⟩
  have e1 : cacheExtends s s1 := by
    have h0 := ensure_site_extends dry g row s
    rw [h1] at h0
    exact h0
  cases r1 with
  | error e =>
    have heq : (process_row dry g row s).2 = s1 := by
      simp only [process_row, h1]
    rw [heq]
    exact e1
  | ok site =>
    rcases h2 : ensure_category dry g site.id row.category_name
        row.filter_definitions s1 with ⟨r2, s2⟩
    have e2 : cacheExtends s s2 := by
      have h0 := ensure_category_extends dry g site.id row.category_name
        row.filter_definitions s1
      rw [h2] at h0
      exact cacheExtends_trans e1 h0
    cases r2 with
    | error e =>
      have heq : (process_row dry g row s).2 = s2 := by
        simp only [process_row, h1, h2]
      rw [heq]
      exact e2
    | ok category =>
      rcases h3 : ensure_filters_and_map_assignments dry g site.id category.id row s2
        with ⟨r3, s3⟩
      have e3 : cacheExtends s s3 := by
        have h0 := ensure_filters_and_map_extends dry g site.id category.id row s2
        rw [h3] at h0
        exact cacheExtends_trans e2 h0
      cases r3 with
      | error e =>
        have heq : (process_row dry g row s).2 = s3 := by
          simp only [process_row, h1, h2, h3]
        rw [heq]
        exact e3
      | ok fa =>
        rcases h4 : create_product dry g site.id category.id row fa s3 with ⟨r4, s4⟩
        have e4 : cacheExtends s s4 := by
          have h0 := create_product_extends dry g site.id category.id row fa s3
          rw [h4] at h0
          exact cacheExtends_trans e3 h0
        cases r4 with
        | error e =>
          have heq : (process_row dry g row s).2 = s4 := by
            simp only [process_row, h1, h2, h3, h4]
          rw [heq]
          exact e4
        | ok pid =>
          rcases h5 : create_price dry g pid row s4 with ⟨r5, s5⟩
          have e5 : cacheExtends s s5 := by
            have h0 := create_price_extends dry g pid row s4
            rw [h5] at h0
            exact cacheExtends_trans e4 h0
          cases r5 with
          | error e =>
            have heq : (process_row dry g row s).2 = s5 := by
              simp only [process_row, h1, h2, h3, h4, h5]
            rw [heq]
            exact e5
          | ok u =>
            cases u
            have heq : (process_row dry g row s).2 = (create_inventory dry g pid row s5).2 := by
              simp only [process_row, h1, h2, h3, h4, h5]
            rw [heq]
            have h0 := create_inventory_extends dry g pid row s5
            exact cacheExtends_trans e5 h0

theorem process_rows_extends (dry : Bool) (g : Gateway) :
    ∀ (rows : List Row) (s : SeederState),
      cacheExtends s (process_rows dry g rows s).2 := by
  intro rows
  induction rows with
  | nil => intro s; exact cacheExtends_refl s
  | cons row rest ih =>
    intro s
    rcases h1 : process_row dry g row s with ⟨r1, s1⟩
    have e1 : cacheExtends s s1 := by
      have h0 := process_row_extends dry g row s
      rw [h1] at h0
      exact h0
    cases r1 with
    | error e =>
      have heq : (process_rows dry g (row :: rest) s).2 = s1 := by
        simp only [process_rows, h1]
      rw [heq]
      exact e1
    | ok u =>
      cases u
      have heq : process_rows dry g (row :: rest) s = process_rows dry g rest s1 := by
        simp only [process_rows, h1]
      rw [heq]
      exact cacheExtends_trans e1 (ih s1)

/-- C3: within one run the caches prevent duplicate creation — a cached
site (keyed by `site_key` falling back to `site_slug`) or category (keyed
by site id and lower-cased name) is returned as-is with the state
untouched (so no request at all is issued for it), a cached filter key is
skipped by the definition loop, and every processed row only ever adds
cache entries, so entries cached when a row is processed are still cached
for every later row. -/
theorem c3_caches_prevent_duplicates :
    (∀ dry g row s v, alookup (siteCacheKey row) s.site_cache = some v →
        ensure_site dry g row s = (.ok v, s)) ∧
    (∀ dry g siteId name fd s c,
        alookup (siteId, pylower name) s.category_cache = some c →
        ensure_category dry g siteId name fd s = (.ok c, s)) ∧
    (∀ dry g siteId categoryId d rest s f,
        alookup (filter_cache_key categoryId d.key) s.filter_cache = some f →
        ensure_filter_definitions dry g siteId categoryId (d :: rest) s
          = ensure_filter_definitions dry g siteId categoryId rest s) ∧
    (∀ dry g rows s, cacheExtends s (process_rows dry g rows s).2) := by
  refine ⟨?_, ?_, ?_, ?_⟩
  · intro dry g row s v h
    simp only [ensure_site]
    rw [h]
  · intro dry g siteId name fd s c h
    simp only [ensure_category]
    rw [h]
  · intro dry g siteId categoryId d rest s f h
    simp only [ensure_filter_definitions, h]
  · intro dry g rows s
    exact process_rows_extends dry g rows s

/-- A gateway answering every request successfully with fixed entities. -/
def sampleGateway : Gateway :=
  { getSiteBySlug := fun _ _ => .ok { id := "site-1" }
    postSite := fun _ _ => .ok { id := "site-1" }
    getCategories := fun _ _ => .ok []
    postCategory := fun _ p => .ok { id := "cat-1", name := p.name }
    getFilters := fun _ _ => .ok []
    postFilter := fun _ p =>
      .ok { id := "f-1", key := p.key, type := p.type, categoryId := p.categoryId }
    postProduct := fun _ _ => .ok (some "prod-1")
    postPrice := fun _ _ => .ok ()
    postInventory := fun _ _ => .ok () }

/-- A normalized row used to instantiate the seeder theorems. -/
def sampleRow : Row :=
  { site_key := "k", site_name := "Shop", site_slug := "shop", site_description := "d",
    site_currency := "EUR", site_language := "en", site_config := "cfg",
    category_name := "Books", filter_definitions := [],
    product_name := "P", product_description := "pd",
    product_images := ["http://a"], product_sku := "SKU1", product_status := "DRAFT",
    product_scheduled_publish_at := none, product_filters := [],
    price_amount := some "9.99", price_currency := "EUR",
    price_effective_from := none, price_effective_to := none,
    inventory_initial_quantity := some "5" }

/-- C3 witness: with the site already cached under its `site_key`,
`ensure_site` returns the cached entity and leaves the state (hence the
request trace) unchanged. -/
theorem c3_caches_prevent_duplicates_witness :
    ensure_site false sampleGateway sampleRow
        ⟨[("k", { id := "site-1" })], [], [], []⟩
      = (.ok { id := "site-1" }, ⟨[("k", { id := "site-1" })], [], [], []⟩) :=
  c3_caches_prevent_duplicates.1 false sampleGateway sampleRow
    ⟨[("k", { id := "site-1" })], [], [], []⟩ { id := "site-1" } (by rfl)

theorem create_product_trace (g : Gateway) (siteId categoryId : String) (row : Row)
    (fa : List FilterAssignment) (s : SeederState) (pid : String) (s' : SeederState)
    (h : create_product false g siteId categoryId row fa s = (.ok pid, s')) :
    s'.trace = s.trace ++ [Req.postProduct (productPayload siteId categoryId row fa)] := by
  cases hp : g.postProduct s.trace.length (productPayload siteId categoryId row fa) with
  | error err =>
    have heq : create_product false g siteId categoryId row fa s
        = (.error (.http err.status err.body),
           recordReq (.postProduct (productPayload siteId categoryId row fa)) s) := by
      simp only [create_product, hp]
      rfl
    rw [heq] at h
    exact absurd (congrArg Prod.fst h) (by simp)
  | ok idOpt =>
    have heq : (create_product false g siteId categoryId row fa s).2
        = recordReq (.postProduct (productPayload siteId categoryId row fa)) s := by
      simp only [create_product, hp]
      rfl
    have h2 : recordReq (.postProduct (productPayload siteId categoryId row fa)) s = s' := by
      rw [← heq, h]
    rw [← h2]
    rfl

theorem create_price_trace (g : Gateway) (pid : String) (row : Row)
    (s : SeederState) (s' : SeederState)
    (h : create_price false g pid row s = (.ok (), s')) :
    s'.trace = s.trace ++ [Req.postPrice (pricePayload pid row)] := by
  cases hp : g.postPrice s.trace.length (pricePayload pid row) with
  | error err =>
    have heq : create_price false g pid row s
        = (.error (.http err.status err.body),
           recordReq (.postPrice (pricePayload pid row)) s) := by
      simp only [create_price, hp]
      rfl
    rw [heq] at h
    exact absurd (congrArg Prod.fst h) (by simp)
  | ok u =>
    have heq : create_price false g pid row s
        = (.ok (), recordReq (.postPrice (pricePayload pid row)) s) := by
      simp only [create_price, hp]
      rfl
    rw [heq] at h
    have h2 : recordReq (.postPrice (pricePayload pid row)) s = s' :=
      congrArg Prod.snd h
    rw [← h2]
    rfl

theorem create_inventory_trace (g : Gateway) (pid : String) (row : Row)
    (s : SeederState) (s' : SeederState)
    (h : create_inventory false g pid row s = (.ok (), s')) :
    s'.trace = s.trace ++ [Req.postInventory (invPayload pid row)] := by
  cases hp : g.postInventory s.trace.length (invPayload pid row) with
  | error err =>
    have heq : create_inventory false g pid row s
        = (.error (.http err.status err.body),
           recordReq (.postInventory (invPayload pid row)) s) := by
      simp only [create_inventory, hp]
      rfl
    rw [heq] at h
    exact absurd (congrArg Prod.fst h) (by simp)
  | ok u =>
    have heq : create_inventory false g pid row s
        = (.ok (), recordReq (.postInventory (invPayload pid row)) s) := by
      simp only [create_inventory, hp]
      rfl
    rw [heq] at h
    have h2 : recordReq (.postInventory (invPayload pid row)) s = s' :=
      congrArg Prod.snd h
    rw [← h2]
    rfl

/-- C4: each processed row goes through the six steps in the fixed order
ensure site, ensure category, ensure filters (producing the filter
assignments), create product, create price, create inventory — and the
price and inventory requests carry the product id returned by the product
creation. -/
theorem c4_six_step_pipeline (g : Gateway) (row : Row) (s : SeederState)
    (h : (process_row false g row s).1 = .ok ()) :
    ∃ site s1 category s2 fa s3 pid s4 s5 s6,
      ensure_site false g row s = (.ok site, s1) ∧
      ensure_category false g site.id row.category_name row.filter_definitions s1
        = (.ok category, s2) ∧
      ensure_filters_and_map_assignments false g site.id category.id row s2
        = (.ok fa, s3) ∧
      create_product false g site.id category.id row fa s3 = (.ok pid, s4) ∧
      create_price false g pid row s4 = (.ok (), s5) ∧
      create_inventory false g pid row s5 = (.ok (), s6) ∧
      process_row false g row s = (.ok (), s6) ∧
      s4.trace = s3.trace
        ++ [Req.postProduct (productPayload site.id category.id row fa)] ∧
      s5.trace = s4.trace ++ [Req.postPrice (pricePayload pid row)] ∧
      s6.trace = s5.trace ++ [Req.postInventory (invPayload pid row)] := by
  rcases h1 : ensure_site false g row s with ⟨r1, s1⟩
  cases r1 with
  | error e =>
    simp only [process_row, h1] at h
    exact absurd h (by simp)
  | ok site =>
  rcases h2 : ensure_category false g site.id row.category_name
      row.filter_definitions s1 with ⟨r2, s2⟩
  cases r2 with
  | error e =>
    simp only [process_row, h1, h2] at h
    exact absurd h (by simp)
  | ok category =>
  rcases h3 : ensure_filters_and_map_assignments false g site.id category.id row s2
    with ⟨r3, s3⟩
  cases r3 with
  | error e =>
    simp only [process_row, h1, h2, h3] at h
    exact absurd h (by simp)
  | ok fa =>
  rcases h4 : create_product false g site.id category.id row fa s3 with ⟨r4, s4⟩
  cases r4 with
  | error e =>
    simp only [process_row, h1, h2, h3, h4] at h
    exact absurd h (by simp)
  | ok pid =>
  rcases h5 : create_price false g pid row s4 with ⟨r5, s5⟩
  cases r5 with
  | error e =>
    simp only [process_row, h1, h2, h3, h4, h5] at h
    exact absurd h (by simp)
  | ok u =>
  cases u
  rcases h6 : create_inventory false g pid row s5 with ⟨r6, s6⟩
  cases r6 with
  | error e =>
    simp only [process_row, h1, h2, h3, h4, h5, h6] at h
    exact absurd h (by simp)
  | ok u2 =>
  cases u2
  have hfinal : process_row false g row s = (.ok (), s6) := by
    simp only [process_row, h1, h2, h3, h4, h5]
    exact h6
  exact ⟨site, s1, category, s2, fa, s3, pid, s4, s5, s6,
    rfl, h2, h3, h4, h5, h6, hfinal,
    create_product_trace g site.id category.id row fa s3 pid s4 h4,
    create_price_trace g pid row s4 s5 h5,
    create_inventory_trace g pid row s5 s6 h6⟩

/-- C4 witness: a concrete successful row run decomposes into the six
steps with the product id threaded into the price and inventory
requests. -/
theorem c4_six_step_pipeline_witness :
    ∃ site s1 category s2 fa s3 pid s4 s5 s6,
      ensure_site false sampleGateway sampleRow initState = (.ok site, s1) ∧
      ensure_category false sampleGateway site.id sampleRow.category_name
        sampleRow.filter_definitions s1 = (.ok category, s2) ∧
      ensure_filters_and_map_assignments false sampleGateway site.id category.id
        sampleRow s2 = (.ok fa, s3) ∧
      create_product false sampleGateway site.id category.id sampleRow fa s3
        = (.ok pid, s4) ∧
      create_price false sampleGateway pid sampleRow s4 = (.ok (), s5) ∧
      create_inventory false sampleGateway pid sampleRow s5 = (.ok (), s6) ∧
      process_row false sampleGateway sampleRow initState = (.ok (), s6) ∧
      s4.trace = s3.trace
        ++ [Req.postProduct (productPayload site.id category.id sampleRow fa)] ∧
      s5.trace = s4.trace ++ [Req.postPrice (pricePayload pid sampleRow)] ∧
      s6.trace = s5.trace ++ [Req.postInventory (invPayload pid sampleRow)] :=
  c4_six_step_pipeline sampleGateway sampleRow initState (by rfl)

/-- A gateway whose category creation always fails with a duplicate
conflict (and succeeds elsewhere). -/
def conflictGateway : Gateway :=
  { sampleGateway with
    postCategory := fun _ _ => .error { status := 409, body := "duplicate key" } }

/-- C1 counterexample: a category-creation conflict is not recovered by
re-fetching — `ensure_category` propagates the `HttpError` and the seeder
fails, so categories do not follow the claimed
create-on-conflict-recovery flow. -/
theorem c1_counterexample :
    (ensure_category false conflictGateway "site-1" "Books" [] initState).1
      = .error (.http 409 "duplicate key") := by rfl

theorem foldl_cat_trace {α : Type} (g : α → ((String × String) × Category)) :
    ∀ (l : List α) (s1 : SeederState),
      (l.foldl (fun st x => { st with category_cache := g x :: st.category_cache })
        s1).trace = s1.trace := by
  intro l
  induction l with
  | nil => intro s1; rfl
  | cons x xs ih =>
    intro s1
    rw [List.foldl_cons, ih]

theorem alookup_cat_foldl_ne (siteId name : String) :
    ∀ (cats : List Category), (∀ c ∈ cats, pylower c.name ≠ pylower name) →
    ∀ s1 : SeederState,
      alookup (siteId, pylower name)
        ((cats.foldl (fun st c =>
          { st with category_cache := ((siteId, pylower c.name), c) :: st.category_cache })
          s1).category_cache)
      = alookup (siteId, pylower name) s1.category_cache := by
  intro cats
  induction cats with
  | nil => intro _ s1; rfl
  | cons c cs ih =>
    intro hne s1
    rw [List.foldl_cons, ih (fun x hx => hne x (List.mem_cons_of_mem _ hx))]
    have hcne : ¬ ((siteId, pylower c.name) = (siteId, pylower name)) := by
      intro hh
      exact hne c (List.mem_cons_self _ _) (congrArg Prod.snd hh)
    simp [alookup, hcne]

/-- C1 amended: all three ensure operations first consult the cache, then
fetch existing entities, then create — but only `_ensure_site` recovers
from a creation conflict (a 400 mentioning "slug") by re-fetching; a
failing category or filter creation propagates its `HttpError` instead of
re-fetching. -/
theorem c1_amended_ensure_flows :
    (∀ (g : Gateway) (row : Row) (s : SeederState) (err1 err : HErr) (site : Site),
       alookup (siteCacheKey row) s.site_cache = none →
       g.getSiteBySlug s.trace.length row.site_slug = .error err1 →
       err1.status = 404 →
       g.postSite (s.trace.length + 1) (sitePayloadOf row) = .error err →
       err.status = 400 →
       strContains (pylower err.body) "slug" = true →
       g.getSiteBySlug (s.trace.length + 2) row.site_slug = .ok site →
       ∃ s', ensure_site false g row s = (.ok site, s') ∧
         s'.trace = s.trace ++ [Req.getSiteBySlug row.site_slug,
           Req.postSite (sitePayloadOf row), Req.getSiteBySlug row.site_slug] ∧
         alookup (siteCacheKey row) s'.site_cache = some site) ∧
    (∀ (g : Gateway) (siteId name : String) (fd : List FilterDefinition)
       (s : SeederState) (err : HErr) (cats : List Category),
       alookup (siteId, pylower name) s.category_cache = none →
       g.getCategories s.trace.length siteId = .ok cats →
       (∀ c ∈ cats, pylower c.name ≠ pylower name) →
       g.postCategory (s.trace.length + 1) (categoryPayloadOf siteId name) = .error err →
       ∃ s', ensure_category false g siteId name fd s
           = (.error (.http err.status err.body), s') ∧
         s'.trace = s.trace ++ [Req.getCategories siteId,
           Req.postCategory (categoryPayloadOf siteId name)]) ∧
    (∀ (g : Gateway) (siteId categoryId : String) (d : FilterDefinition)
       (rest : List FilterDefinition) (s : SeederState) (err : HErr),
       alookup (filter_cache_key categoryId d.key) s.filter_cache = none →
       g.postFilter s.trace.length (filterPayloadOf siteId categoryId d) = .error err →
       ensure_filter_definitions false g siteId categoryId (d :: rest) s
         = (.error (.http err.status err.body),
            recordReq (.postFilter (filterPayloadOf siteId categoryId d)) s)) := by
  refine ⟨?_, ?_, ?_⟩
  · intro g row s err1 err site halo hg1 hs404 hpost hs400 hslug hg2
    have hfetch1 : fetch_site_by_slug g row.site_slug s
        = (.ok none, recordReq (.getSiteBySlug row.site_slug) s) := by
      simp only [fetch_site_by_slug, hg1]
      rw [if_pos (by simp [hs404])]
    have hmain : ensure_site false g row s
        = ensure_site_create false g row (recordReq (.getSiteBySlug row.site_slug) s) := by
      simp only [ensure_site, halo, hfetch1]
      rfl
    have hlen1 : (recordReq (.getSiteBySlug row.site_slug) s).trace.length
        = s.trace.length + 1 := by
      simp [recordReq]
    have hpost1 : g.postSite (recordReq (.getSiteBySlug row.site_slug) s).trace.length
        (sitePayloadOf row) = .error err := by
      rw [hlen1]
      exact hpost
    have hcreate : ensure_site_create false g row
          (recordReq (.getSiteBySlug row.site_slug) s)
        = ensure_site_create_err g row err
            (recordReq (.postSite (sitePayloadOf row))
              (recordReq (.getSiteBySlug row.site_slug) s)) := by
      simp only [ensure_site_create, hpost1]
      rfl
    have hrec : ensure_site_create_err g row err
          (recordReq (.postSite (sitePayloadOf row))
            (recordReq (.getSiteBySlug row.site_slug) s))
        = ensure_site_recover g row
            (recordReq (.postSite (sitePayloadOf row))
              (recordReq (.getSiteBySlug row.site_slug) s)) := by
      simp only [ensure_site_create_err]
      rw [if_pos (by simp [hs400, hslug])]
    have hlen2 : (recordReq (.postSite (sitePayloadOf row))
          (recordReq (.getSiteBySlug row.site_slug) s)).trace.length
        = s.trace.length + 2 := by
      simp [recordReq]
    have hg2b : g.getSiteBySlug
          (recordReq (.postSite (sitePayloadOf row))
            (recordReq (.getSiteBySlug row.site_slug) s)).trace.length row.site_slug
        = .ok site := by
      rw [hlen2]
      exact hg2
    have hfetch2 : fetch_site_by_slug g row.site_slug
          (recordReq (.postSite (sitePayloadOf row))
            (recordReq (.getSiteBySlug row.site_slug) s))
        = (.ok (some site),
           recordReq (.getSiteBySlug row.site_slug)
             (recordReq (.postSite (sitePayloadOf row))
               (recordReq (.getSiteBySlug row.site_slug) s))) := by
      simp only [fetch_site_by_slug, hg2b]
    have hrecov : ensure_site_recover g row
          (recordReq (.postSite (sitePayloadOf row))
            (recordReq (.getSiteBySlug row.site_slug) s))
        = (.ok site,
           { recordReq (.getSiteBySlug row.site_slug)
               (recordReq (.postSite (sitePayloadOf row))
                 (recordReq (.getSiteBySlug row.site_slug) s)) with
             site_cache := (siteCacheKey row, site)
               :: (recordReq (.getSiteBySlug row.site_slug)
                   (recordReq (.postSite (sitePayloadOf row))
                     (recordReq (.getSiteBySlug row.site_slug) s))).site_cache }) := by
      simp only [ensure_site_recover, hfetch2]
    refine ⟨_, by rw [hmain, hcreate, hrec, hrecov], ?_, ?_⟩
    · simp [recordReq, List.append_assoc]
    · simp [alookup]
  · intro g siteId name fd s err cats halo hg hne hp
    have hf : fetch_categories_into_cache g siteId s
        = (.ok (), cats.foldl
            (fun st c =>
              { st with category_cache := ((siteId, pylower c.name), c) :: st.category_cache })
            (recordReq (.getCategories siteId) s)) := by
      simp only [fetch_categories_into_cache, hg]
    have halo1 : alookup (siteId, pylower name)
        ((cats.foldl
          (fun st c =>
            { st with category_cache := ((siteId, pylower c.name), c) :: st.category_cache })
          (recordReq (.getCategories siteId) s)).category_cache) = none := by
      rw [alookup_cat_foldl_ne siteId name cats hne]
      exact halo
    have heq0 : ensure_category false g siteId name fd s
        = (match alookup (siteId, pylower name)
              ((cats.foldl
                (fun st c =>
                  { st with category_cache :=
                      ((siteId, pylower c.name), c) :: st.category_cache })
                (recordReq (.getCategories siteId) s)).category_cache) with
           | some c => ((.ok c : Except SeedErr Category),
               cats.foldl
                 (fun st c =>
                   { st with category_cache :=
                       ((siteId, pylower c.name), c) :: st.category_cache })
                 (recordReq (.getCategories siteId) s))
           | none => ensure_category_create false g siteId name fd
               (cats.foldl
                 (fun st c =>
                   { st with category_cache :=
                       ((siteId, pylower c.name), c) :: st.category_cache })
                 (recordReq (.getCategories siteId) s))) := by
      simp only [ensure_category, halo, hf]
      rfl
    have heq : ensure_category false g siteId name fd s
        = ensure_category_create false g siteId name fd
            (cats.foldl
              (fun st c =>
                { st with category_cache := ((siteId, pylower c.name), c) :: st.category_cache })
              (recordReq (.getCategories siteId) s)) := by
      rw [heq0, halo1]
    have hlen : (cats.foldl
          (fun st c =>
            { st with category_cache := ((siteId, pylower c.name), c) :: st.category_cache })
          (recordReq (.getCategories siteId) s)).trace.length
        = s.trace.length + 1 := by
      rw [foldl_cat_trace (fun c => ((siteId, pylower c.name), c))]
      simp [recordReq]
    have hp1 : g.postCategory
          (cats.foldl
            (fun st c =>
              { st with category_cache := ((siteId, pylower c.name), c) :: st.category_cache })
            (recordReq (.getCategories siteId) s)).trace.length
          (categoryPayloadOf siteId name) = .error err := by
      rw [hlen]
      exact hp
    have hcreate : ensure_category_create false g siteId name fd
          (cats.foldl
            (fun st c =>
              { st with category_cache := ((siteId, pylower c.name), c) :: st.category_cache })
            (recordReq (.getCategories siteId) s))
        = (.error (.http err.status err.body),
           recordReq (.postCategory (categoryPayloadOf siteId name))
             (cats.foldl
               (fun st c =>
                 { st with category_cache := ((siteId, pylower c.name), c) :: st.category_cache })
               (recordReq (.getCategories siteId) s))) := by
      simp only [ensure_category_create, hp1]
      rfl
    refine ⟨_, by rw [heq, hcreate], ?_⟩
    show (cats.foldl
        (fun st c =>
          { st with category_cache := ((siteId, pylower c.name), c) :: st.category_cache })
        (recordReq (.getCategories siteId) s)).trace
        ++ [Req.postCategory (categoryPayloadOf siteId name)] = _
    rw [foldl_cat_trace (fun c => ((siteId, pylower c.name), c))]
    simp [recordReq, List.append_assoc]
  · intro g siteId categoryId d rest s err halo hp
    simp only [ensure_filter_definitions, halo, hp, reduceIte]
    rfl

/-- C1 amended witness: a concrete conflicting category creation
propagates the 409 after the fetch, with exactly the two requests
fetch-then-create issued. -/
theorem c1_amended_ensure_flows_witness :
    ∃ s', ensure_category false conflictGateway "site-1" "Books" [] initState
        = (.error (.http 409 "duplicate key"), s') ∧
      s'.trace = initState.trace ++ [Req.getCategories "site-1",
        Req.postCategory (categoryPayloadOf "site-1" "Books")] :=
  c1_amended_ensure_flows.2.1 conflictGateway "site-1" "Books" [] initState
    { status := 409, body := "duplicate key" } [] rfl rfl (by simp) rfl
